import Mathlib

/-!
Verification of the rspamd archive reader/writer core (`src/libmime/archives.c`)
against its natural-language specification.

The C code is shallowly embedded: byte buffers are `List Nat` (each element a
byte value), pointers become natural-number offsets (or `Int` where the C
computes possibly-negative pointer differences), machine integers are `Nat`
with explicit `% 2^w` at the points where the C performs fixed-width
arithmetic, and every fallible parse returns `Option`/`Except`.  External
collaborators (zlib, OpenSSL, ICU charset detection, `localtime`) are
parameters of the embedding, never reimplemented.
-/

namespace Rspamd

/-- Read one byte of a buffer; all dereferences in the modelled C code are
bounds-checked before use, so the default only matters on paths the C code
never takes (where it would be an out-of-bounds read). -/
def getB (bs : List Nat) (i : Nat) : Nat := bs.getD i 0

/-- Little-endian 16-bit read at offset `i` (mirrors the `memcpy` +
`GUINT16_FROM_LE` pattern of the source). -/
def readU16 (bs : List Nat) (i : Nat) : Nat :=
  getB bs i + 256 * getB bs (i + 1)

/-- Little-endian 32-bit read at offset `i`. -/
def readU32 (bs : List Nat) (i : Nat) : Nat :=
  getB bs i + 256 * getB bs (i + 1) + 65536 * getB bs (i + 2) + 16777216 * getB bs (i + 3)

/-- Little-endian 64-bit read at offset `i`. -/
def readU64 (bs : List Nat) (i : Nat) : Nat :=
  readU32 bs i + 4294967296 * readU32 bs (i + 4)

/-- Little-endian encoding of a 16-bit value (`rspamd_ba_append_u16le`). -/
def u16le (v : Nat) : List Nat := [v % 256, v / 256 % 256]

/-- Little-endian encoding of a 32-bit value (`rspamd_ba_append_u32le`). -/
def u32le (v : Nat) : List Nat :=
  [v % 256, v / 256 % 256, v / 65536 % 256, v / 16777216 % 256]

/-- Value of a little-endian byte list (used for `memcpy` into an integer). -/
def leVal : List Nat → Nat
  | [] => 0
  | b :: rest => b % 256 + 256 * leVal rest

/-- Overwrite bytes of a buffer starting at offset `i` (models the in-place
header patches the ZIP writer performs through raw pointers). -/
def setBytes : List Nat → Nat → List Nat → List Nat
  | l, _, [] => l
  | l, i, v :: vs => setBytes (l.set i v) (i + 1) vs

/-! ### RAR variable-length integer (`rspamd_archive_rar_read_vint`)

The C loop keeps the accumulator `t`, the shift and the remaining-byte count;
`remain` is decremented only when a continuation byte is consumed, and the
loop also stops once `shift` exceeds 57.  The helper returns the final
`(t, consumed, remain, shift)` tuple so the caller can perform the source's
`remain == 0 || shift > 64` check. -/

def rarVintGo : List Nat → Nat → Nat → Nat → Nat × Nat × Nat × Nat
  | _, 0, shift, t => (t, 0, 0, shift)
  | bs, remain + 1, shift, t =>
    if shift ≤ 57 then
      let b := bs.headD 0
      if b &&& 0x80 ≠ 0 then
        let r := rarVintGo bs.tail remain (shift + 7) (t ||| ((b &&& 0x7f) <<< shift))
        (r.1, r.2.1 + 1, r.2.2.1, r.2.2.2)
      else
        (t ||| ((b &&& 0x7f) <<< shift), 1, remain + 1, shift)
    else
      (t, 0, remain + 1, shift)

/-- Model of `rspamd_archive_rar_read_vint`: given the byte suffix at the
cursor and the caller-supplied `remain`, return `some (value, consumed)` or
`none` for the C function's `-1`. -/
def rspamd_archive_rar_read_vint (bs : List Nat) (remain : Nat) : Option (Nat × Nat) :=
  let r := rarVintGo bs remain 0 0
  if r.2.2.1 = 0 ∨ r.2.2.2 > 64 then none else some (r.1, r.2.1)

/-- Accumulated RAR vint value: the low seven bits of each of the first `n`
bytes, least-significant chunk first, chunk `j` shifted by `7 * (k + j)`. -/
def rarAcc (bs : List Nat) (k : Nat) : Nat → Nat
  | 0 => 0
  | n + 1 => ((getB bs 0 &&& 0x7f) <<< (7 * k)) ||| rarAcc bs.tail (k + 1) n

/-- Amended behaviour of the RAR vint decoder, written from the corrected
claim: the scan looks at no more than nine bytes (the shift values
0,7,…,56); it fails exactly when `remain ≤ 9` and all `remain` leading bytes
carry the continuation bit; otherwise it succeeds, consuming through the
first clear-bit byte, or exactly nine bytes when no clear-bit byte occurs
among the first nine. -/
def rarVintAmended (bs : List Nat) (remain : Nat) : Option (Nat × Nat) :=
  match (List.range (min remain 9)).find? (fun j => getB bs j &&& 0x80 == 0) with
  | some j => some (rarAcc bs 0 (j + 1), j + 1)
  | none => if remain ≤ 9 then none else some (rarAcc bs 0 9, 9)

lemma getB_tail (bs : List Nat) (j : Nat) : getB bs.tail j = getB bs (j + 1) := by
  cases bs <;> simp [getB]

lemma find?_range_shift (p : Nat → Bool) (n : Nat) (h : p 0 = false) :
    (List.range (n + 1)).find? p =
      ((List.range n).find? (fun j => p (j + 1))).map (· + 1) := by
  rw [List.range_succ_eq_map, List.find?_cons, h, List.find?_map]
  rfl

/-- Characterization of the `rspamd_archive_rar_read_vint` loop: starting with
shift `7 * k`, the loop scans at most `9 - k` further bytes and returns the
accumulated value together with the bytes consumed, the final `remain` and
the final shift. -/
lemma rarVintGo_char (remain : Nat) : ∀ (bs : List Nat) (k t : Nat), k ≤ 9 →
    rarVintGo bs remain (7 * k) t =
      match (List.range (min remain (9 - k))).find? (fun j => getB bs j &&& 0x80 == 0) with
      | some j => (t ||| rarAcc bs k (j + 1), j + 1, remain - j, 7 * (k + j))
      | none =>
        if remain ≤ 9 - k then (t ||| rarAcc bs k remain, remain, 0, 7 * (k + remain))
        else (t ||| rarAcc bs k (9 - k), 9 - k, remain - (9 - k), 63) := by
  induction remain with
  | zero =>
    intro bs k t hk
    simp [rarVintGo, rarAcc]
  | succ m ih =>
    intro bs k t hk
    by_cases hk9 : k = 9
    · subst hk9
      have hL : rarVintGo bs (m + 1) (7 * 9) t = (t, 0, m + 1, 7 * 9) := rfl
      rw [hL]
      norm_num [rarAcc]
    · have hk8 : k ≤ 8 := by omega
      have hs : 7 * k ≤ 57 := by omega
      have hmin : min (m + 1) (9 - k) = min m (8 - k) + 1 := by omega
      rw [hmin]
      by_cases hb : getB bs 0 &&& 0x80 ≠ 0
      · -- continuation byte: recurse with shift + 7
        have hstep : rarVintGo bs (m + 1) (7 * k) t =
            (let r := rarVintGo bs.tail m (7 * k + 7)
                (t ||| ((getB bs 0 &&& 0x7f) <<< (7 * k)))
             (r.1, r.2.1 + 1, r.2.2.1, r.2.2.2)) := by
          have hh : bs.headD 0 = getB bs 0 := by cases bs <;> simp [getB]
          simp only [rarVintGo, if_pos hs, hh, if_pos hb]
        rw [hstep]
        have h7 : 7 * k + 7 = 7 * (k + 1) := by ring
        rw [h7, ih bs.tail (k + 1) _ (by omega)]
        have hshift : (List.range (min m (8 - k) + 1)).find?
              (fun j => getB bs j &&& 0x80 == 0) =
            ((List.range (min m (8 - k))).find?
              (fun j => getB bs (j + 1) &&& 0x80 == 0)).map (· + 1) := by
          apply find?_range_shift
          simp only [beq_eq_false_iff_ne]
          exact hb
        rw [hshift]
        have h9k : 9 - (k + 1) = 8 - k := by omega
        rw [h9k]
        have htp : (fun j => getB bs.tail j &&& 0x80 == 0) =
            (fun j => getB bs (j + 1) &&& 0x80 == 0) := by
          funext j; rw [getB_tail]
        rw [htp]
        cases hfind : (List.range (min m (8 - k))).find?
            (fun j => getB bs (j + 1) &&& 0x80 == 0) with
        | none =>
          have hmapn : (none : Option Nat).map (· + 1) = none := rfl
          rw [hmapn]
          by_cases hm : m ≤ 8 - k
          · rw [if_pos hm, if_pos (by omega : m + 1 ≤ 9 - k)]
            simp only [Prod.mk.injEq]
            refine ⟨?_, trivial, trivial, by omega⟩
            have hu : rarAcc bs k (m + 1) =
                ((getB bs 0 &&& 0x7f) <<< (7 * k)) ||| rarAcc bs.tail (k + 1) m := rfl
            rw [hu, ← Nat.or_assoc]
          · rw [if_neg hm, if_neg (by omega : ¬ m + 1 ≤ 9 - k)]
            simp only [Prod.mk.injEq]
            refine ⟨?_, by omega, by omega, trivial⟩
            have hu : rarAcc bs k (9 - k) =
                ((getB bs 0 &&& 0x7f) <<< (7 * k)) ||| rarAcc bs.tail (k + 1) (8 - k) := by
              have h1 : 9 - k = (8 - k) + 1 := by omega
              rw [h1]
              rfl
            rw [hu, ← Nat.or_assoc]
        | some j =>
          have hmaps : (some j).map (· + 1) = some (j + 1) := rfl
          rw [hmaps]
          simp only [Prod.mk.injEq]
          refine ⟨?_, trivial, by omega, by omega⟩
          have hu : rarAcc bs k (j + 1 + 1) =
              ((getB bs 0 &&& 0x7f) <<< (7 * k)) ||| rarAcc bs.tail (k + 1) (j + 1) := rfl
          rw [hu, ← Nat.or_assoc]
      · -- terminating byte: consume it and stop
        push_neg at hb
        have hh : bs.headD 0 = getB bs 0 := by cases bs <;> simp [getB]
        have hstep : rarVintGo bs (m + 1) (7 * k) t =
            (t ||| ((getB bs 0 &&& 0x7f) <<< (7 * k)), 1, m + 1, 7 * k) := by
          simp only [rarVintGo, if_pos hs, hh]
          rw [if_neg (by simpa using hb)]
        rw [hstep]
        have hfind : (List.range (min m (8 - k) + 1)).find?
            (fun j => getB bs j &&& 0x80 == 0) = some 0 := by
          rw [List.range_succ_eq_map, List.find?_cons]
          simp [hb]
        rw [hfind]
        simp [rarAcc]

/-- C3 (amended): the RAR vint decoder equals its amended description —
at most nine bytes are examined; failure happens exactly when at most nine
bytes remain and all of them carry the continuation bit. -/
theorem c3_rar_vint_amended (bs : List Nat) (remain : Nat) :
    rspamd_archive_rar_read_vint bs remain = rarVintAmended bs remain := by
  unfold rspamd_archive_rar_read_vint rarVintAmended
  have h := rarVintGo_char remain bs 0 0 (by omega)
  have h0 : 7 * 0 = 0 := rfl
  rw [h0] at h
  have h9 : 9 - 0 = 9 := rfl
  rw [h9] at h
  rw [h]
  cases hfind : (List.range (min remain 9)).find? (fun j => getB bs j &&& 0x80 == 0) with
  | some j =>
    have hj : j ∈ List.range (min remain 9) := List.mem_of_find?_eq_some hfind
    have hj9 : j < min remain 9 := List.mem_range.mp hj
    have hj1 : j < remain := lt_of_lt_of_le hj9 (min_le_left _ _)
    have hj2 : j < 9 := lt_of_lt_of_le hj9 (min_le_right _ _)
    simp only
    rw [if_neg (by push_neg; exact ⟨by omega, by omega⟩)]
    rw [Nat.zero_or]
  | none =>
    by_cases hr : remain ≤ 9
    · simp only [if_pos hr]
      simp
    · simp only [if_neg hr]
      rw [if_neg (by push_neg; exact ⟨by omega, by omega⟩)]
      rw [Nat.zero_or]

/-- C3 counterexample: a buffer of twelve continuation bytes (no byte with a
clear continuation bit at all, so the claim demands failure) on which the
decoder nevertheless succeeds, returning value 0 with nine bytes consumed. -/
theorem c3_rar_vint_counterexample :
    rspamd_archive_rar_read_vint (List.replicate 12 0x80) 12 = some (0, 9) ∧
    (List.replicate 12 0x80).all (fun b => b &&& 0x80 != 0) = true := by
  constructor
  · rfl
  · rfl

/-! ### 7-Zip variable-length integer (`rspamd_archive_7zip_read_vint`)

The C scans bits 6 down to 1 of the first byte; when bit `cur_bit` is clear
it copies `intlen` bytes over an *uninitialized* `uint64_t` and then shifts
it right by `sizeof(tgt) - NBBY * intlen`, an expression evaluated in
`size_t` arithmetic: it is 0 for `intlen = 1` (leaving the uninitialized
high bytes in place) and wraps to a value ≥ 2^63 for `intlen ≥ 2` (an
undefined shift).  Both effects are modelled by the explicit `junk`
parameter.  Bit 0 is never examined, so the seven-extra-byte prefix `0xFE`
falls through the scan and is rejected. -/

def szVintScan (junk : Nat) (bs : List Nat) (t : Nat) : Nat → Nat → Option (Nat × Nat)
  | 0, _ => none
  | curBit + 1, intlen =>
    if t.testBit (curBit + 1) = false then
      if bs.length ≥ intlen + 1 then
        let copied := (leVal ((bs.drop 1).take intlen) +
            junk % 2 ^ (64 - 8 * intlen) * 2 ^ (8 * intlen)) % 2 ^ 64
        let tgt := if intlen = 1 then copied else junk % 2 ^ 64
        some ((tgt + ((t &&& (0xFF >>> (8 - (curBit + 1)))) <<< (8 * intlen))) % 2 ^ 64,
          intlen + 1)
      else
        szVintScan junk bs t curBit (intlen + 1)
    else
      szVintScan junk bs t curBit (intlen + 1)

/-- Model of `rspamd_archive_7zip_read_vint` over the byte suffix at the
cursor (`remain` equals the suffix length at every call site). -/
def rspamd_archive_7zip_read_vint (junk : Nat) (bs : List Nat) : Option (Nat × Nat) :=
  match bs with
  | [] => none
  | t :: rest =>
    if t.testBit 7 = false then some (t, 1)
    else if t = 0xFF then
      if bs.length ≥ 9 then some (leVal (rest.take 8), 9) else none
    else szVintScan junk bs t 6 1

/-- Count of leading 1-bits of a byte, scanned from bit 7 down (at most 8). -/
def leadingOnes8 (t : Nat) : Nat :=
  if t.testBit 7 = false then 0
  else if t.testBit 6 = false then 1
  else if t.testBit 5 = false then 2
  else if t.testBit 4 = false then 3
  else if t.testBit 3 = false then 4
  else if t.testBit 2 = false then 5
  else if t.testBit 1 = false then 6
  else if t.testBit 0 = false then 7
  else 8

/-- Decoder described by the claim and by the source's own documentation
comment: the count of leading 1-bits of the first byte determines the number
of extra little-endian bytes, the remaining low bits of the first byte
contribute the top bits of the value (no contribution for the 0xFE/0xFF
prefixes), and the only failure is truncation. -/
def szVintDocSpec (bs : List Nat) : Option (Nat × Nat) :=
  match bs with
  | [] => none
  | t :: rest =>
    let ones := leadingOnes8 t
    if rest.length < ones then none
    else
      let contrib := if ones ≤ 6 then (t &&& (0xFF >>> (ones + 1))) <<< (8 * ones) else 0
      some (leVal (rest.take ones) + contrib, ones + 1)

/-- C4: the 7-Zip vint decoder rejects every buffer whose first byte is the
prefix 0xFE (for any value of the uninitialized memory and any following
bytes), while the decoder documented in the source and in the claim reads
seven extra little-endian bytes — on `FE 01 00 00 00 00 00 00` it returns
value 1 having consumed eight bytes. -/
theorem c4_7zip_vint_fe_code_bug :
    (∀ (junk : Nat) (rest : List Nat),
      rspamd_archive_7zip_read_vint junk (0xFE :: rest) = none) ∧
    szVintDocSpec [0xFE, 1, 0, 0, 0, 0, 0, 0] = some (1, 8) := by
  constructor
  · intro junk rest
    rfl
  · rfl

/-! ### ZIP writer (`rspamd_archives_zip_write` and helpers)

External collaborators of the writer — zlib's raw DEFLATE and CRC-32, the
`localtime`-based DOS time stamps, OpenSSL's RNG, PBKDF2, AES-CTR and
HMAC-SHA1 — are fields of `WriterEnv`.  The embedding reproduces the C
byte-for-byte: headers are emitted with placeholder CRC/size fields which are
patched in place afterwards, exactly as the source does through raw
pointers. -/

structure ZipFileSpec where
  name : List Nat
  data : List Nat
  mtime : Nat
  mode : Nat
deriving DecidableEq, Repr

structure WriterEnv where
  deflate : List Nat → List Nat
  crc32 : List Nat → Nat
  dosTime : Nat → Nat
  dosDate : Nat → Nat
  rngSalt : List Nat
  pbkdf2sha1 : List Nat → List Nat → List Nat
  aesCtrEnc : List Nat → List Nat → List Nat
  hmacSha1 : List Nat → List Nat → List Nat

/-- Occurrence of the two-byte sequence `..` anywhere in the string
(`strstr(name, "..") != NULL`). -/
def hasDotDot : List Nat → Bool
  | a :: b :: rest => (a == 0x2E && b == 0x2E) || hasDotDot (b :: rest)
  | _ => false

/-- Model of `rspamd_zip_validate_name` (names are NUL-free byte strings). -/
def rspamd_zip_validate_name (name : List Nat) : Bool :=
  if name.isEmpty then false
  else if name.headD 0 == 0x2F || name.headD 0 == 0x5C then false
  else if hasDotDot name then false
  else if name.contains 0x3A then false
  else true

/-- Model of `rspamd_zip_write_local_header`. -/
def rspamd_zip_write_local_header (env : WriterEnv) (name : List Nat)
    (verNeeded gpFlags method mtime crc csize usize extraLen : Nat) : List Nat :=
  u32le 0x04034b50 ++ u16le verNeeded ++ u16le gpFlags ++ u16le method ++
  u16le (env.dosTime mtime) ++ u16le (env.dosDate mtime) ++
  u32le crc ++ u32le csize ++ u32le usize ++
  u16le name.length ++ u16le extraLen ++ name

/-- Model of `rspamd_zip_write_central_header`. -/
def rspamd_zip_write_central_header (env : WriterEnv) (name : List Nat)
    (verNeeded gpFlags method mtime crc csize usize lfhOffset mode extraLen : Nat) :
    List Nat :=
  u32le 0x02014b50 ++ u16le ((3 <<< 8) ||| 20) ++ u16le verNeeded ++ u16le gpFlags ++
  u16le method ++ u16le (env.dosTime mtime) ++ u16le (env.dosDate mtime) ++
  u32le crc ++ u32le csize ++ u32le usize ++ u16le name.length ++ u16le extraLen ++
  u16le 0 ++ u16le 0 ++ u16le 0 ++
  u32le (((if mode ≠ 0 then mode else 0o644) &&& 0xFFFF) <<< 16) ++
  u32le lfhOffset ++ name

/-- Model of `rspamd_zip_write_extra_aes` (extra field id 0x9901). -/
def rspamd_zip_write_extra_aes (vendorVersion strength actualMethod : Nat) : List Nat :=
  u16le 0x9901 ++ u16le 7 ++ u16le vendorVersion ++ [0x41, 0x45] ++ [strength % 256] ++
  u16le actualMethod

inductive ZipWriteFail where
  | noFiles
  | invalidName
deriving DecidableEq, Repr

/-- The writer encrypts exactly when a non-empty password is supplied. -/
def zipUseAes : Option (List Nat) → Bool
  | some (_ :: _) => true
  | _ => false

/-- The store fallback: raw DEFLATE did not shrink the data. -/
def zipStore (env : WriterEnv) (f : ZipFileSpec) : Bool :=
  (env.deflate f.data).length ≥ f.data.length

/-- The payload actually written for an entry. -/
def zipPayload (env : WriterEnv) (f : ZipFileSpec) : List Nat :=
  if zipStore env f then f.data else env.deflate f.data

/-- The real compression method after the store fallback. -/
def zipMethodFinal (env : WriterEnv) (f : ZipFileSpec) : Nat :=
  if zipStore env f then 0 else 8

/-- The 16-byte AES salt drawn from the RNG. -/
def zipSalt (env : WriterEnv) : List Nat :=
  (env.rngSalt ++ List.replicate 16 0).take 16

/-- The 66-byte PBKDF2 output (32-byte AES key, 32-byte HMAC key, 2-byte
password verifier). -/
def zipDk (env : WriterEnv) (pw : List Nat) : List Nat :=
  (env.pbkdf2sha1 pw (zipSalt env) ++ List.replicate 66 0).take 66

/-- The AES-CTR ciphertext of the (possibly stored) payload. -/
def zipCt (env : WriterEnv) (pw : List Nat) (f : ZipFileSpec) : List Nat :=
  env.aesCtrEnc ((zipDk env pw).take 32) (zipPayload env f)

/-- The truncated HMAC-SHA1 authentication code. -/
def zipMac (env : WriterEnv) (pw : List Nat) (f : ZipFileSpec) : List Nat :=
  (env.hmacSha1 (((zipDk env pw).drop 32).take 32) (zipCt env pw f) ++
    List.replicate 10 0).take 10

/-- The compressed size recorded for an AES entry: salt, password verifier,
ciphertext and MAC. -/
def zipAesCsize (env : WriterEnv) (pw : List Nat) (f : ZipFileSpec) : Nat :=
  (16 + 2 + (zipCt env pw f).length + 10) % 2 ^ 32

/-- One iteration of the writer's entry loop: validate the name, then emit
the local header, the (possibly store-fallback) payload — encrypted,
MAC-ed and preceded by salt and password verifier in the AES case — patch
the placeholder header fields in place, and append the matching central
directory record. -/
def zipWriteLoop (env : WriterEnv) (pw : Option (List Nat)) :
    List ZipFileSpec → List Nat → List Nat → Except ZipWriteFail (List Nat × List Nat)
  | [], zip, cd => .ok (zip, cd)
  | f :: rest, zip, cd =>
    if rspamd_zip_validate_name f.name = false then .error .invalidName
    else
      if zipUseAes pw then
        let pwb := pw.getD []
        let lfhOff := zip.length
        let zip1 := zip ++
          rspamd_zip_write_local_header env f.name 51 0x801 99 f.mtime 0 0
            (f.data.length % 2 ^ 32) 11 ++
          rspamd_zip_write_extra_aes 2 3 8
        let zip2 := zip1 ++ zipSalt env ++ ((zipDk env pwb).drop 64).take 2
        let zip3 := zip2 ++ zipCt env pwb f
        let zip4 := zip3 ++ zipMac env pwb f
        let zip5 := setBytes zip4 (lfhOff + 18) (u32le (zipAesCsize env pwb f))
        let zip6 := setBytes zip5 (lfhOff + 30 + f.name.length + 9)
          (u16le (zipMethodFinal env f))
        let cd1 := cd ++
          rspamd_zip_write_central_header env f.name 51 0x801 99 f.mtime 0
            (zipAesCsize env pwb f) (f.data.length % 2 ^ 32) (lfhOff % 2 ^ 32)
            f.mode 11 ++
          rspamd_zip_write_extra_aes 2 3 (zipMethodFinal env f)
        zipWriteLoop env pw rest zip6 cd1
      else
        let lfhOff := zip.length
        let crc := env.crc32 f.data % 2 ^ 32
        let zip1 := zip ++
          rspamd_zip_write_local_header env f.name 20 0x800 8 f.mtime crc 0
            (f.data.length % 2 ^ 32) 0
        let zip2 := zip1 ++ zipPayload env f
        let zip3 := if zipStore env f then setBytes zip2 (lfhOff + 8) (u16le 0) else zip2
        let zip4 := setBytes (setBytes zip3 (lfhOff + 14) (u32le crc)) (lfhOff + 18)
          (u32le ((zipPayload env f).length % 2 ^ 32))
        let cd1 := cd ++
          rspamd_zip_write_central_header env f.name 20 0x800 (zipMethodFinal env f)
            f.mtime crc ((zipPayload env f).length % 2 ^ 32) (f.data.length % 2 ^ 32)
            (lfhOff % 2 ^ 32) f.mode 0
        zipWriteLoop env pw rest zip4 cd1

/-- Model of `rspamd_archives_zip_write`: entries, then the central
directory, then the end-of-central-directory record. -/
def rspamd_archives_zip_write (env : WriterEnv) (specs : List ZipFileSpec)
    (pw : Option (List Nat)) : Except ZipWriteFail (List Nat) :=
  if specs.isEmpty then .error .noFiles
  else
    match zipWriteLoop env pw specs [] [] with
    | .error e => .error e
    | .ok (zip, cd) =>
      .ok (zip ++ cd ++
        (u32le 0x06054b50 ++ u16le 0 ++ u16le 0 ++
         u16le specs.length ++ u16le specs.length ++
         u32le cd.length ++ u32le zip.length ++ u16le 0))

/-- Bad names exactly as the claim words them: empty, beginning with `/` or
`\`, containing the substring `..`, or containing `:`. -/
def claimBadName (name : List Nat) : Prop :=
  name = [] ∨ name.head? = some 0x2F ∨ name.head? = some 0x5C ∨
  [0x2E, 0x2E] <:+: name ∨ 0x3A ∈ name

lemma hasDotDot_iff (l : List Nat) : hasDotDot l = true ↔ [0x2E, 0x2E] <:+: l := by
  induction l with
  | nil =>
    constructor
    · intro h
      have hf : hasDotDot [] = false := rfl
      rw [hf] at h
      simp at h
    · intro h
      have hl := h.length_le
      simp at hl
  | cons a rest ih =>
    cases rest with
    | nil =>
      constructor
      · intro h
        have hf : hasDotDot [a] = false := rfl
        rw [hf] at h
        simp at h
      · intro h
        have hl := h.length_le
        simp at hl
    | cons b rest2 =>
      rw [List.infix_cons_iff]
      constructor
      · intro h
        simp only [hasDotDot, Bool.or_eq_true, Bool.and_eq_true, beq_iff_eq] at h
        rcases h with ⟨ha, hb⟩ | h
        · subst ha; subst hb
          exact Or.inl ⟨rest2, rfl⟩
        · exact Or.inr (ih.mp h)
      · intro h
        simp only [hasDotDot, Bool.or_eq_true, Bool.and_eq_true, beq_iff_eq]
        rcases h with h | h
        · rcases h with ⟨tl, htl⟩
          simp only [List.cons_append, List.cons.injEq] at htl
          exact Or.inl ⟨htl.1.symm, htl.2.1.symm⟩
        · exact Or.inr (ih.mpr h)

/-- C8: the ZIP writer fails with `InvalidName` (producing no byte vector)
whenever some entry name is empty, begins with a slash or backslash,
contains `..`, or contains `:`; and the name validator accepts a name
exactly when it has none of those features. -/
theorem c8_writer_name_validation :
    (∀ (env : WriterEnv) (specs : List ZipFileSpec) (pw : Option (List Nat)),
      (∃ f ∈ specs, rspamd_zip_validate_name f.name = false) →
      rspamd_archives_zip_write env specs pw = .error .invalidName) ∧
    (∀ name : List Nat, rspamd_zip_validate_name name = false ↔ claimBadName name) := by
  constructor
  · intro env specs pw hbad
    have hloop : ∀ (l : List ZipFileSpec) (zip cd : List Nat),
        (∃ f ∈ l, rspamd_zip_validate_name f.name = false) →
        zipWriteLoop env pw l zip cd = .error .invalidName := by
      intro l
      induction l with
      | nil => intro zip cd h; rcases h with ⟨f, hf, _⟩; simp at hf
      | cons g rest ih =>
        intro zip cd h
        by_cases hg : rspamd_zip_validate_name g.name = false
        · simp only [zipWriteLoop, if_pos hg]
        · rcases h with ⟨f, hf, hfbad⟩
          rcases List.mem_cons.mp hf with rfl | hmem
          · exact absurd hfbad hg
          · simp only [zipWriteLoop, if_neg hg]
            split
            · exact ih _ _ ⟨f, hmem, hfbad⟩
            · exact ih _ _ ⟨f, hmem, hfbad⟩
    have hne : specs.isEmpty = false := by
      rcases hbad with ⟨f, hf, _⟩
      cases specs with
      | nil => simp at hf
      | cons a l => rfl
    unfold rspamd_archives_zip_write
    rw [hne]
    simp only [Bool.false_eq_true, if_false]
    rw [hloop specs [] [] hbad]
  · intro name
    unfold rspamd_zip_validate_name claimBadName
    cases name with
    | nil => simp
    | cons h rest =>
      simp only [List.isEmpty_cons, List.headD_cons, List.head?_cons, Option.some.injEq,
        Bool.false_eq_true, if_false, List.cons_ne_nil, false_or]
      by_cases hsl : (h == 0x2F || h == 0x5C) = true
      · rw [if_pos hsl]
        have hor : h = 0x2F ∨ h = 0x5C := by
          rcases Bool.or_eq_true_iff.mp hsl with h1 | h1
          · exact Or.inl (by simpa using h1)
          · exact Or.inr (by simpa using h1)
        rcases hor with h1 | h1 <;> simp [h1]
      · rw [if_neg hsl]
        have hne1 : ¬ h = 0x2F := by
          intro hh; subst hh; simp at hsl
        have hne2 : ¬ h = 0x5C := by
          intro hh; subst hh; simp at hsl
        by_cases h3 : hasDotDot (h :: rest) = true
        · rw [if_pos h3]
          simp [hne1, hne2, (hasDotDot_iff _).mp h3]
        · rw [if_neg h3]
          by_cases h4 : (h :: rest).contains 0x3A = true
          · rw [if_pos h4]
            have hmem : (0x3A : Nat) ∈ h :: rest := by
              simpa using h4
            simp [hne1, hne2, hmem]
          · rw [if_neg h4]
            have hnm : ¬ (0x3A : Nat) ∈ h :: rest := by
              intro hmem
              exact h4 (by simpa using hmem)
            have hni : ¬ [0x2E, 0x2E] <:+: h :: rest := fun hc =>
              h3 ((hasDotDot_iff _).mpr hc)
            simp [hne1, hne2, hni, hnm]

/-- A concrete environment standing in for the external collaborators (its
deflate always expands by one byte, forcing the store fallback on every
entry). -/
def envTest : WriterEnv where
  deflate := fun l => l ++ [0]
  crc32 := fun _ => 0
  dosTime := fun _ => 0
  dosDate := fun _ => 0
  rngSalt := List.replicate 16 1
  pbkdf2sha1 := fun _ _ => List.replicate 66 2
  aesCtrEnc := fun _ d => d
  hmacSha1 := fun _ _ => List.replicate 20 3

/-- Witness for C8: the traversal name `../x` is rejected with `InvalidName`,
and the plain name `a.txt` passes validation. -/
theorem c8_writer_name_validation_witness :
    rspamd_archives_zip_write envTest
      [⟨[0x2E, 0x2E, 0x2F, 0x78], [0x79], 0, 0⟩] none = .error .invalidName ∧
    (rspamd_zip_validate_name [0x61, 0x2E, 0x74, 0x78, 0x74] = false ↔
      claimBadName [0x61, 0x2E, 0x74, 0x78, 0x74]) := by
  constructor
  · exact c8_writer_name_validation.1 envTest
      [⟨[0x2E, 0x2E, 0x2F, 0x78], [0x79], 0, 0⟩] none
      ⟨⟨[0x2E, 0x2E, 0x2F, 0x78], [0x79], 0, 0⟩, by simp, by rfl⟩
  · exact c8_writer_name_validation.2 [0x61, 0x2E, 0x74, 0x78, 0x74]

/-! ### Writer layout: closed form of the emitted bytes -/

lemma length_setBytes (vs : List Nat) : ∀ (l : List Nat) (i : Nat),
    (setBytes l i vs).length = l.length := by
  induction vs with
  | nil => intro l i; rfl
  | cons v vs ih => intro l i; simp [setBytes, ih]

lemma list_set_append_right (a : List Nat) : ∀ (b : List Nat) (k v : Nat),
    (a ++ b).set (a.length + k) v = a ++ b.set k v := by
  induction a with
  | nil => intro b k v; simp
  | cons x a ih =>
    intro b k v
    have e : (x :: a).length + k = (a.length + k) + 1 := by
      simp [List.length_cons]; omega
    rw [List.cons_append, e]
    show x :: ((a ++ b).set (a.length + k) v) = (x :: a) ++ b.set k v
    rw [ih]
    rfl

lemma setBytes_append_right (vs : List Nat) : ∀ (a b : List Nat) (k : Nat),
    setBytes (a ++ b) (a.length + k) vs = a ++ setBytes b k vs := by
  induction vs with
  | nil => intro a b k; rfl
  | cons v vs ih =>
    intro a b k
    simp only [setBytes]
    rw [list_set_append_right]
    have e : a.length + k + 1 = a.length + (k + 1) := by omega
    rw [e, ih]

/-- An in-place patch that covers a field exactly replaces the field. -/
lemma setBytes_exact (vs : List Nat) : ∀ (a b c : List Nat) (i : Nat),
    i = a.length → vs.length = b.length →
    setBytes (a ++ (b ++ c)) i vs = a ++ (vs ++ c) := by
  induction vs with
  | nil =>
    intro a b c i hi hl
    cases b with
    | nil => rfl
    | cons b0 b2 => simp at hl
  | cons v vs ih =>
    intro a b c i hi hl
    cases b with
    | nil => simp at hl
    | cons b0 b2 =>
      subst hi
      simp only [setBytes]
      have h1 : (a ++ (b0 :: b2 ++ c)).set (a.length + 0) v =
          a ++ (b0 :: b2 ++ c).set 0 v := list_set_append_right a _ 0 v
      rw [Nat.add_zero] at h1
      simp only [List.cons_append] at h1 ⊢
      rw [h1]
      have h2 : a ++ v :: (b2 ++ c) = (a ++ [v]) ++ (b2 ++ c) := by simp
      rw [List.set_cons_zero, h2,
        ih (a ++ [v]) b2 c (a.length + 1) (by simp) (by simpa using hl)]
      simp

/-- The final bytes of one entry in the output: emitted headers and payload
with the placeholder fields patched in place, exactly as one iteration of
`zipWriteLoop` leaves them. -/
def zipEntryChunk (env : WriterEnv) (pw : Option (List Nat)) (f : ZipFileSpec) :
    List Nat :=
  if zipUseAes pw then
    setBytes (setBytes
      (rspamd_zip_write_local_header env f.name 51 0x801 99 f.mtime 0 0
          (f.data.length % 2 ^ 32) 11 ++
        (rspamd_zip_write_extra_aes 2 3 8 ++
          (zipSalt env ++ (((zipDk env (pw.getD [])).drop 64).take 2 ++
            (zipCt env (pw.getD []) f ++ zipMac env (pw.getD []) f)))))
      18 (u32le (zipAesCsize env (pw.getD []) f)))
      (30 + f.name.length + 9) (u16le (zipMethodFinal env f))
  else
    setBytes (setBytes
      (if zipStore env f then
        setBytes (rspamd_zip_write_local_header env f.name 20 0x800 8 f.mtime
            (env.crc32 f.data % 2 ^ 32) 0 (f.data.length % 2 ^ 32) 0 ++
          zipPayload env f) 8 (u16le 0)
      else
        rspamd_zip_write_local_header env f.name 20 0x800 8 f.mtime
            (env.crc32 f.data % 2 ^ 32) 0 (f.data.length % 2 ^ 32) 0 ++
          zipPayload env f)
      14 (u32le (env.crc32 f.data % 2 ^ 32)))
      18 (u32le ((zipPayload env f).length % 2 ^ 32))

/-- The central-directory record of one entry whose local header starts at
`lfhOff`. -/
def zipCdChunk (env : WriterEnv) (pw : Option (List Nat)) (f : ZipFileSpec)
    (lfhOff : Nat) : List Nat :=
  if zipUseAes pw then
    rspamd_zip_write_central_header env f.name 51 0x801 99 f.mtime 0
      (zipAesCsize env (pw.getD []) f) (f.data.length % 2 ^ 32) (lfhOff % 2 ^ 32)
      f.mode 11 ++
    rspamd_zip_write_extra_aes 2 3 (zipMethodFinal env f)
  else
    rspamd_zip_write_central_header env f.name 20 0x800 (zipMethodFinal env f) f.mtime
      (env.crc32 f.data % 2 ^ 32) ((zipPayload env f).length % 2 ^ 32)
      (f.data.length % 2 ^ 32) (lfhOff % 2 ^ 32) f.mode 0

/-- The entry bytes and central-directory bytes of a spec list, with local
headers starting at `off`. -/
def zipEntriesGo (env : WriterEnv) (pw : Option (List Nat)) :
    List ZipFileSpec → Nat → List Nat × List Nat
  | [], _ => ([], [])
  | f :: rest, off =>
    let ch := zipEntryChunk env pw f
    let r := zipEntriesGo env pw rest (off + ch.length)
    (ch ++ r.1, zipCdChunk env pw f off ++ r.2)

/-- The writer loop in closed form: it only ever appends entry bytes (patched
within the entry being written) and central-directory records. -/
lemma zipWriteLoop_closed (env : WriterEnv) (pw : Option (List Nat)) :
    ∀ (l : List ZipFileSpec) (zip cd : List Nat),
      (∀ f ∈ l, rspamd_zip_validate_name f.name = true) →
      zipWriteLoop env pw l zip cd =
        .ok (zip ++ (zipEntriesGo env pw l zip.length).1,
             cd ++ (zipEntriesGo env pw l zip.length).2) := by
  intro l
  induction l with
  | nil => intro zip cd hv; simp [zipWriteLoop, zipEntriesGo]
  | cons f rest ih =>
    intro zip cd hv
    have hf : rspamd_zip_validate_name f.name = true := hv f (by simp)
    have hrest : ∀ g ∈ rest, rspamd_zip_validate_name g.name = true :=
      fun g hg => hv g (by simp [hg])
    simp only [zipWriteLoop, hf]
    rw [if_neg (by simp)]
    by_cases haes : zipUseAes pw
    · rw [if_pos haes]
      have hzip : setBytes (setBytes
          (zip ++
            rspamd_zip_write_local_header env f.name 51 0x801 99 f.mtime 0 0
              (f.data.length % 2 ^ 32) 11 ++
            rspamd_zip_write_extra_aes 2 3 8 ++ zipSalt env ++
            ((zipDk env (pw.getD [])).drop 64).take 2 ++ zipCt env (pw.getD []) f ++
            zipMac env (pw.getD []) f)
          (zip.length + 18) (u32le (zipAesCsize env (pw.getD []) f)))
          (zip.length + 30 + f.name.length + 9) (u16le (zipMethodFinal env f)) =
          zip ++ zipEntryChunk env pw f := by
        have e1 : zip ++
            rspamd_zip_write_local_header env f.name 51 0x801 99 f.mtime 0 0
              (f.data.length % 2 ^ 32) 11 ++
            rspamd_zip_write_extra_aes 2 3 8 ++ zipSalt env ++
            ((zipDk env (pw.getD [])).drop 64).take 2 ++ zipCt env (pw.getD []) f ++
            zipMac env (pw.getD []) f =
            zip ++
            (rspamd_zip_write_local_header env f.name 51 0x801 99 f.mtime 0 0
              (f.data.length % 2 ^ 32) 11 ++
            (rspamd_zip_write_extra_aes 2 3 8 ++
            (zipSalt env ++
            (((zipDk env (pw.getD [])).drop 64).take 2 ++
            (zipCt env (pw.getD []) f ++
            zipMac env (pw.getD []) f))))) := by
          simp [List.append_assoc]
        rw [e1, setBytes_append_right]
        have e2 : zip.length + 30 + f.name.length + 9 =
            zip.length + (30 + f.name.length + 9) := by omega
        rw [e2, setBytes_append_right]
        rw [zipEntryChunk, if_pos haes]
      rw [hzip]
      rw [ih (zip ++ zipEntryChunk env pw f) _ hrest]
      simp only [zipEntriesGo, List.length_append]
      simp [zipCdChunk, haes, List.append_assoc]
    · rw [if_neg haes]
      have hzip : setBytes (setBytes
          (if zipStore env f then
            setBytes (zip ++
              rspamd_zip_write_local_header env f.name 20 0x800 8 f.mtime
                (env.crc32 f.data % 2 ^ 32) 0 (f.data.length % 2 ^ 32) 0 ++
              zipPayload env f) (zip.length + 8) (u16le 0)
          else
            zip ++
              rspamd_zip_write_local_header env f.name 20 0x800 8 f.mtime
                (env.crc32 f.data % 2 ^ 32) 0 (f.data.length % 2 ^ 32) 0 ++
              zipPayload env f)
          (zip.length + 14) (u32le (env.crc32 f.data % 2 ^ 32)))
          (zip.length + 18) (u32le ((zipPayload env f).length % 2 ^ 32)) =
          zip ++ zipEntryChunk env pw f := by
        have e1 : zip ++
            rspamd_zip_write_local_header env f.name 20 0x800 8 f.mtime
              (env.crc32 f.data % 2 ^ 32) 0 (f.data.length % 2 ^ 32) 0 ++
            zipPayload env f =
            zip ++
            (rspamd_zip_write_local_header env f.name 20 0x800 8 f.mtime
              (env.crc32 f.data % 2 ^ 32) 0 (f.data.length % 2 ^ 32) 0 ++
            zipPayload env f) := by
          simp [List.append_assoc]
        rw [e1]
        have e3 : (if zipStore env f then
            setBytes (zip ++
              (rspamd_zip_write_local_header env f.name 20 0x800 8 f.mtime
                (env.crc32 f.data % 2 ^ 32) 0 (f.data.length % 2 ^ 32) 0 ++
              zipPayload env f)) (zip.length + 8) (u16le 0)
          else
            zip ++
              (rspamd_zip_write_local_header env f.name 20 0x800 8 f.mtime
                (env.crc32 f.data % 2 ^ 32) 0 (f.data.length % 2 ^ 32) 0 ++
              zipPayload env f)) =
            zip ++
            (if zipStore env f then
              setBytes (rspamd_zip_write_local_header env f.name 20 0x800 8 f.mtime
                  (env.crc32 f.data % 2 ^ 32) 0 (f.data.length % 2 ^ 32) 0 ++
                zipPayload env f) 8 (u16le 0)
            else
              rspamd_zip_write_local_header env f.name 20 0x800 8 f.mtime
                  (env.crc32 f.data % 2 ^ 32) 0 (f.data.length % 2 ^ 32) 0 ++
                zipPayload env f) := by
          by_cases hst : zipStore env f
          · rw [if_pos hst, if_pos hst, setBytes_append_right]
          · rw [if_neg hst, if_neg hst]
        rw [e3, setBytes_append_right, setBytes_append_right]
        rw [zipEntryChunk, if_neg haes]
      rw [hzip]
      rw [ih (zip ++ zipEntryChunk env pw f) _ hrest]
      simp only [zipEntriesGo, List.length_append]
      simp [zipCdChunk, haes, List.append_assoc]

/-- The whole writer in closed form. -/
lemma zip_write_closed (env : WriterEnv) (pw : Option (List Nat))
    (specs : List ZipFileSpec) (hne : specs ≠ [])
    (hv : ∀ f ∈ specs, rspamd_zip_validate_name f.name = true) :
    rspamd_archives_zip_write env specs pw =
      .ok ((zipEntriesGo env pw specs 0).1 ++ (zipEntriesGo env pw specs 0).2 ++
        (u32le 0x06054b50 ++ u16le 0 ++ u16le 0 ++
         u16le specs.length ++ u16le specs.length ++
         u32le (zipEntriesGo env pw specs 0).2.length ++
         u32le (zipEntriesGo env pw specs 0).1.length ++ u16le 0)) := by
  unfold rspamd_archives_zip_write
  rw [if_neg (by simpa using hne)]
  have h := zipWriteLoop_closed env pw specs [] [] hv
  simp only [List.nil_append, List.length_nil] at h
  rw [h]

/-! ### Filename normalizer (`rspamd_archive_file_try_utf`)

The charset detector (`rspamd_mime_charset_find_by_content`) and the ICU
converters are external collaborators; their joint outcome on a given byte
string is a parameter (`NormEnv`).  The no-charset fallback path and the
UTF-16 control/zero-width scan are the function's own code and are modelled
concretely. -/

inductive CharsetOutcome where
  | noCharset
  | convFail
  | converted (units : List Nat)

structure NormEnv where
  conv : List Nat → CharsetOutcome
  fromUChars : List Nat → Option (List Nat)

/-- Printable ASCII graphic characters (`g_ascii_isgraph`). -/
def asciiGraph (b : Nat) : Bool := 0x21 ≤ b && b ≤ 0x7E

/-- Zero-width characters flagged by the scanner (modelled from the spec:
U+200B, U+200C, U+200D, U+FEFF; the macro itself lives outside this file's
sources). -/
def isZeroWidthSpace (c : Nat) : Bool :=
  c == 0x200B || c == 0x200C || c == 0x200D || c == 0xFEFF

/-- ICU `u_iscntrl`: general category Cc, i.e. C0 and C1 controls. -/
def uIsCntrl (c : Nat) : Bool := c < 0x20 || (0x7F ≤ c && c ≤ 0x9F)

/-- The `U16_NEXT` scan over converted UTF-16 units: true when some decoded
code point (surrogate pairs combined, unpaired surrogates taken as-is) is a
control or zero-width character. -/
def utf16BadScan : List Nat → Bool
  | [] => false
  | [u] => isZeroWidthSpace u || uIsCntrl u
  | u :: v :: rest =>
    if (0xD800 ≤ u && u < 0xDC00) && (0xDC00 ≤ v && v < 0xE000) then
      let cp := 0x10000 + (u - 0xD800) * 1024 + (v - 0xDC00)
      (isZeroWidthSpace cp || uIsCntrl cp) || utf16BadScan rest
    else
      (isZeroWidthSpace u || uIsCntrl u) || utf16BadScan (v :: rest)

/-- Model of `rspamd_archive_file_try_utf`, returning the produced name bytes
and the obfuscated flag.  Every branch of the C function produces a name, so
the result is total.  In the no-charset branch the C tests
`*p < 0x7f && (g_ascii_iscntrl(*p) || *p == 0)` on a signed char: on byte
values that is equivalent to `b < 0x20` (bytes ≥ 0x80 compare below 0x7f but
are not ASCII controls, and 0x7F itself fails the first test). -/
def rspamd_archive_file_try_utf (env : NormEnv) (inBytes : List Nat) : List Nat × Bool :=
  match env.conv inBytes with
  | .noCharset =>
    (inBytes.map (fun b => if asciiGraph b then b else 0x3F),
     inBytes.any (fun b => !asciiGraph b && decide (b < 0x20)))
  | .convFail => (inBytes, true)
  | .converted units =>
    match env.fromUChars units with
    | none => (inBytes, true)
    | some u8 => (u8, utf16BadScan units)

/-! ### Archive data model -/

inductive ArchiveType where
  | zip | rar | sevenZip | gzip
deriving DecidableEq, Repr

structure ArchiveFile where
  fname : List Nat
  obfuscated : Bool
  encrypted : Bool
  compressedSize : Nat
  uncompressedSize : Nat
deriving DecidableEq, Repr

structure Archive where
  atype : ArchiveType
  files : List ArchiveFile
  encrypted : Bool
  hasObfuscatedFiles : Bool
  size : Nat
deriving DecidableEq, Repr

/-! ### ZIP reader (`rspamd_archive_process_zip`) -/

inductive ZipReadFail where
  | noEocd
  | shortEocd
  | badCdExtent
  | badCdRecord
  | tooLargeRecord
  | fuelOut
deriving DecidableEq, Repr

/-- Backward scan for the EOCD signature, starting 21 bytes before the last
byte and giving up after 1024 failed probes or at `start + 4`. -/
def zipFindEocdGo (input : List Nat) : Nat → Nat → Option Nat
  | 0, _ => none
  | pos + 1, processed =>
    if pos + 1 ≤ 4 then none
    else if processed > 1024 then none
    else if readU32 input (pos + 1) == 0x06054b50 then some (pos + 1)
    else zipFindEocdGo input pos (processed + 1)

def zipFindEocd (input : List Nat) : Option Nat :=
  if input.length < 22 then none
  else zipFindEocdGo input (input.length - 22) 0

/-- The reader's walk over a record's extra fields looking for the
strong-encryption header id 0x0017: `(id:u16, len:u16)` records are examined
only while `p + 4 < extra + extra_len` (strictly).  The fuel is an upper
bound on iterations; each one advances by at least four bytes, so
`extraLen + 1` always suffices. -/
def zipExtraWalkEnc (input : List Nat) (extraStart extraLen : Nat) :
    Nat → Nat → Bool
  | 0, _ => false
  | fuel + 1, p =>
    if p + 4 < extraStart + extraLen then
      (readU16 input p == 0x0017) ||
        zipExtraWalkEnc input extraStart extraLen fuel (p + readU16 input (p + 2) + 4)
    else false

/-- Walk of the central directory records.  Mirrors the source loop: check
the record magic and base length against the EOCD position, read the fields,
normalize the name, compute the encrypted flag from the general-purpose bits
and the extra-field walk, then advance by the full record size.  The fuel is
an iteration bound; each iteration advances by at least 46 bytes. -/
def zipWalkCd (env : NormEnv) (input : List Nat) (eocd cdEnd : Nat) :
    Nat → Nat → List ArchiveFile → Bool → Except ZipReadFail (List ArchiveFile × Bool)
  | 0, _, _, _ => .error .fuelOut
  | fuel + 1, cd, files, hasObf =>
    if cd < cdEnd then
      if (eocd : Int) - cd < 46 ∨
          ¬ (getB input cd = 0x50 ∧ getB input (cd + 1) = 0x4b ∧
             getB input (cd + 2) = 0x01 ∧ getB input (cd + 3) = 0x02) then
        .error .badCdRecord
      else
        let flags := readU16 input (cd + 8)
        let compSize := readU32 input (cd + 20)
        let uncompSize := readU32 input (cd + 24)
        let fnameLen := readU16 input (cd + 28)
        let extraLen := readU16 input (cd + 30)
        let commentLen := readU16 input (cd + 32)
        if cd + fnameLen + commentLen + extraLen + 46 > eocd then .error .tooLargeRecord
        else
          let nm := rspamd_archive_file_try_utf env ((input.drop (cd + 46)).take fnameLen)
          let encExtra := zipExtraWalkEnc input (cd + 46 + fnameLen) extraLen
            (extraLen + 1) (cd + 46 + fnameLen)
          let entry : ArchiveFile :=
            { fname := nm.1
              obfuscated := nm.2
              encrypted := (flags &&& 0x41 != 0) || encExtra
              compressedSize := compSize
              uncompressedSize := uncompSize }
          zipWalkCd env input eocd cdEnd fuel
            (cd + fnameLen + commentLen + extraLen + 46) (files ++ [entry])
            (hasObf || nm.2)
    else .ok (files, hasObf)

/-- The phase after the central-directory extent check: walk the records at
`cd_offset` and publish the archive.  The ZIP reader never sets the
archive-level encrypted flag. -/
def zipCdWalkPhase (env : NormEnv) (input : List Nat) (eocd : Nat) :
    Except ZipReadFail Archive :=
  let cdSize := readU32 input (eocd + 12)
  let cdOffset := readU32 input (eocd + 16)
  match zipWalkCd env input eocd (cdOffset + cdSize) (input.length + 1) cdOffset
      [] false with
  | .error e => .error e
  | .ok (files, hasObf) =>
    .ok { atype := .zip, files := files, encrypted := false,
          hasObfuscatedFiles := hasObf, size := input.length }

/-- Model of `rspamd_archive_process_zip`: locate the EOCD, check its size,
read `cd_size` (offset +12) and `cd_offset` (offset +16), perform the
source's 32-bit extent check `cd_offset + cd_size > eocd - start` (the sum
wraps at 2^32), and walk the central directory. -/
def rspamd_archive_process_zip (env : NormEnv) (input : List Nat) :
    Except ZipReadFail Archive :=
  match zipFindEocd input with
  | none => .error .noEocd
  | some eocd =>
    if (input.length : Int) - 1 - eocd < 21 then .error .shortEocd
    else if (readU32 input (eocd + 16) + readU32 input (eocd + 12)) % 2 ^ 32 >
        eocd then .error .badCdExtent
    else zipCdWalkPhase env input eocd

/-- A concrete normalizer environment: the charset detector finds no charset
(the raw-bytes fallback path of the source is then taken). -/
def normEnvTest : NormEnv where
  conv := fun _ => .noCharset
  fromUChars := fun _ => none

lemma zipWalkCd_no_extent (env : NormEnv) (input : List Nat) (eocd cdEnd : Nat) :
    ∀ (fuel cd : Nat) (files : List ArchiveFile) (obf : Bool),
      zipWalkCd env input eocd cdEnd fuel cd files obf ≠ .error .badCdExtent := by
  intro fuel
  induction fuel with
  | zero =>
    intro cd files obf h
    simp [zipWalkCd] at h
  | succ n ih =>
    intro cd files obf h
    simp only [zipWalkCd] at h
    revert h
    split
    · split
      · intro h; simp at h
      · split
        · intro h; simp at h
        · intro h; exact ih _ _ _ h
    · intro h; simp at h

lemma zipCdWalkPhase_no_extent (env : NormEnv) (input : List Nat) (eocd : Nat) :
    zipCdWalkPhase env input eocd ≠ .error .badCdExtent := by
  simp only [zipCdWalkPhase]
  cases hwalk : zipWalkCd env input eocd
      (readU32 input (eocd + 16) + readU32 input (eocd + 12))
      (input.length + 1) (readU32 input (eocd + 16)) [] false with
  | error e =>
    simp only [hwalk]
    intro h
    cases h
    exact zipWalkCd_no_extent env input eocd _ _ _ _ _ hwalk
  | ok r => simp [hwalk]

/-- C5 (amended): once an EOCD is located and passes the length check, the
reader rejects with `BadCdExtent` exactly when the *wrapping 32-bit* sum of
`cd_offset` and `cd_size` exceeds the EOCD position; when the wrapped sum is
within bounds it proceeds to walk the central directory at `cd_offset` (the
claim's non-wrapping reading fails: a sum that overflows 2^32 can pass the
check). -/
theorem c5_cd_extent_check_amended (env : NormEnv) (input : List Nat) (eocd : Nat)
    (h1 : zipFindEocd input = some eocd)
    (h2 : ¬ ((input.length : Int) - 1 - eocd < 21)) :
    (rspamd_archive_process_zip env input = .error .badCdExtent ↔
      (readU32 input (eocd + 16) + readU32 input (eocd + 12)) % 2 ^ 32 >
        eocd) ∧
    ((readU32 input (eocd + 16) + readU32 input (eocd + 12)) % 2 ^ 32 ≤
        eocd →
      rspamd_archive_process_zip env input = zipCdWalkPhase env input eocd) := by
  unfold rspamd_archive_process_zip
  rw [h1]
  simp only [if_neg h2]
  by_cases hw : (readU32 input (eocd + 16) + readU32 input (eocd + 12)) % 2 ^ 32 >
      eocd
  · rw [if_pos hw]
    constructor
    · exact ⟨fun _ => hw, fun _ => rfl⟩
    · intro hle; omega
  · rw [if_neg hw]
    exact ⟨⟨fun hc => absurd hc (zipCdWalkPhase_no_extent env input eocd),
      fun hgt => absurd hgt hw⟩, fun _ => rfl⟩

/-- An input whose EOCD declares `cd_offset = 0xFFFFFFFF` and `cd_size = 1`:
their mathematical sum (2^32) exceeds the EOCD position (8), but the 32-bit
sum wraps to 0 and passes the source's extent check. -/
def c5cex : List Nat :=
  List.replicate 8 0 ++
  (u32le 0x06054b50 ++ u16le 0 ++ u16le 0 ++ u16le 0 ++ u16le 0 ++
   u32le 1 ++ u32le 0xFFFFFFFF ++ u16le 0)

/-- C5 counterexample: the mathematical sum `cd_offset + cd_size` exceeds the
EOCD position, yet the reader does not reject with `BadCdExtent` — the
wrapped 32-bit sum passes the check and the reader proceeds into the
central-directory walk (failing there with `BadCdRecord` instead). -/
theorem c5_cd_extent_check_counterexample :
    rspamd_archive_process_zip normEnvTest c5cex = .error .badCdRecord ∧
    readU32 c5cex (8 + 16) + readU32 c5cex (8 + 12) > 8 ∧
    rspamd_archive_process_zip normEnvTest c5cex ≠ .error .badCdExtent := by
  have he : rspamd_archive_process_zip normEnvTest c5cex = .error .badCdRecord := rfl
  refine ⟨he, by decide, ?_⟩
  rw [he]
  simp

/-- A well-formed empty archive: `cd_offset = 8`, `cd_size = 0`. -/
def c5wit : List Nat :=
  List.replicate 8 0 ++
  (u32le 0x06054b50 ++ u16le 0 ++ u16le 0 ++ u16le 0 ++ u16le 0 ++
   u32le 0 ++ u32le 8 ++ u16le 0)

/-- Witness for C5: on a concrete input with an in-bounds wrapped sum the
reader proceeds to the central-directory walk and does not report
`BadCdExtent`. -/
theorem c5_cd_extent_check_amended_witness :
    rspamd_archive_process_zip normEnvTest c5wit = zipCdWalkPhase normEnvTest c5wit 8 ∧
    rspamd_archive_process_zip normEnvTest c5wit ≠ .error .badCdExtent := by
  have h := c5_cd_extent_check_amended normEnvTest c5wit 8 (by decide) (by decide)
  exact ⟨h.2 (by decide), fun hc => absurd (h.1.mp hc) (by decide)⟩

/-! ### C6: the per-entry encrypted flag -/

/-- Claim-side walk of an extra area as `(id:u16, len:u16, payload)` records:
a record is read whenever its full 4-byte header fits in the area. -/
def claimExtraRecords : Nat → List Nat → List (Nat × Nat)
  | 0, _ => []
  | fuel + 1, bytes =>
    if 4 ≤ bytes.length then
      (readU16 bytes 0, readU16 bytes 2) ::
        claimExtraRecords fuel (bytes.drop (4 + readU16 bytes 2))
    else []

/-- The claim's notion of an id-0x0017 record being present in the extra
area. -/
def claimExtraHas17 (bytes : List Nat) : Bool :=
  (claimExtraRecords (bytes.length + 1) bytes).any (fun r => r.1 == 0x0017)

/-- Amended-claim predicate: the same record walk, but a record is examined
only while strictly more than four bytes of the area remain (the source's
`p + 4 < extra + extra_len`), so a record whose header ends exactly at the
area boundary is not examined. -/
def strictExtraHas17 : Nat → List Nat → Bool
  | 0, _ => false
  | fuel + 1, bytes =>
    if 4 < bytes.length then
      (readU16 bytes 0 == 0x0017) ||
        strictExtraHas17 fuel (bytes.drop (4 + readU16 bytes 2))
    else false

lemma getB_drop (l : List Nat) (n i : Nat) : getB (l.drop n) i = getB l (n + i) := by
  simp [getB, List.getD, List.getElem?_drop]

lemma getB_take (l : List Nat) (n i : Nat) (h : i < n) :
    getB (l.take n) i = getB l i := by
  simp [getB, List.getD, List.getElem?_take, h]

lemma region_length (input : List Nat) (s l : Nat) (h : s + l ≤ input.length) :
    ((input.drop s).take l).length = l := by
  simp [List.length_take, List.length_drop]
  omega

lemma getB_region (input : List Nat) (s l j : Nat) (hj : j < l) :
    getB ((input.drop s).take l) j = getB input (s + j) := by
  rw [getB_take _ _ _ hj, getB_drop]

lemma readU16_region (input : List Nat) (s l j : Nat) (hj : j + 1 < l) :
    readU16 ((input.drop s).take l) j = readU16 input (s + j) := by
  unfold readU16
  rw [getB_region input s l j (by omega), getB_region input s l (j + 1) (by omega)]
  ring_nf

/-- The reader's offset-based extra-field walk equals the strict record walk
over the extra area taken as a byte slice. -/
lemma zipExtraWalkEnc_slice (input : List Nat) (s l : Nat) (h : s + l ≤ input.length) :
    ∀ (fuel o : Nat),
      zipExtraWalkEnc input s l fuel (s + o) =
        strictExtraHas17 fuel (((input.drop s).take l).drop o) := by
  intro fuel
  induction fuel with
  | zero => intro o; rfl
  | succ n ih =>
    intro o
    have hlen : (((input.drop s).take l).drop o).length = l - o := by
      rw [List.length_drop, region_length input s l h]
    by_cases hg : s + o + 4 < s + l
    · have hg2 : 4 < (((input.drop s).take l).drop o).length := by omega
      have hr0 : readU16 (((input.drop s).take l).drop o) 0 = readU16 input (s + o) := by
        unfold readU16
        rw [getB_drop, getB_drop]
        rw [getB_region input s l (o + 0) (by omega), getB_region input s l (o + (0 + 1)) (by omega)]
        ring_nf
      have hr2 : readU16 (((input.drop s).take l).drop o) 2 = readU16 input (s + o + 2) := by
        unfold readU16
        rw [getB_drop, getB_drop]
        rw [getB_region input s l (o + 2) (by omega), getB_region input s l (o + (2 + 1)) (by omega)]
        have e1 : s + (o + 2) = s + o + 2 := by ring
        have e2 : s + (o + (2 + 1)) = s + o + 2 + 1 := by ring
        rw [e1, e2]
      simp only [zipExtraWalkEnc, strictExtraHas17, if_pos hg, if_pos hg2, hr0, hr2]
      have hdd : (((input.drop s).take l).drop o).drop (4 + readU16 input (s + o + 2)) =
          ((input.drop s).take l).drop (o + readU16 input (s + o + 2) + 4) := by
        rw [List.drop_drop]
        have e : o + (4 + readU16 input (s + o + 2)) =
            o + readU16 input (s + o + 2) + 4 := by ring
        rw [e]
      rw [hdd]
      have harg : s + o + readU16 input (s + o + 2) + 4 =
          s + (o + readU16 input (s + o + 2) + 4) := by ring
      rw [show zipExtraWalkEnc input s l n (s + o + readU16 input (s + o + 2) + 4) =
          zipExtraWalkEnc input s l n (s + (o + readU16 input (s + o + 2) + 4)) by rw [harg]]
      exact congrArg (fun b => (readU16 input (s + o) == 0x0017) || b)
        (ih (o + readU16 input (s + o + 2) + 4))
    · have hg2 : ¬ 4 < (((input.drop s).take l).drop o).length := by omega
      simp only [zipExtraWalkEnc, strictExtraHas17, if_neg hg, if_neg hg2]

/-- C6 (amended): the ZIP reader never sets the archive-level encrypted flag,
and the per-entry extra-field search for id 0x0017 equals the *strict* record
walk: a record is examined only while more than four bytes of the extra area
remain, so a trailing record whose 4-byte header touches the end of the area
is ignored (the claim's plain presence notion over-approximates it). -/
theorem c6_zip_encrypted_flag_amended :
    (∀ (env : NormEnv) (input : List Nat) (arch : Archive),
      rspamd_archive_process_zip env input = .ok arch → arch.encrypted = false) ∧
    (∀ (input : List Nat) (s l fuel : Nat), s + l ≤ input.length →
      zipExtraWalkEnc input s l fuel s = strictExtraHas17 fuel ((input.drop s).take l)) := by
  constructor
  · intro env input arch h
    unfold rspamd_archive_process_zip at h
    cases hfind : zipFindEocd input with
    | none => rw [hfind] at h; simp at h
    | some eocd =>
      rw [hfind] at h
      simp only at h
      by_cases h2 : (input.length : Int) - 1 - eocd < 21
      · rw [if_pos h2] at h; simp at h
      · rw [if_neg h2] at h
        by_cases h3 : (readU32 input (eocd + 16) + readU32 input (eocd + 12)) % 2 ^ 32 >
            eocd
        · rw [if_pos h3] at h; simp at h
        · rw [if_neg h3] at h
          simp only [zipCdWalkPhase] at h
          cases hwalk : zipWalkCd env input eocd
              (readU32 input (eocd + 16) + readU32 input (eocd + 12))
              (input.length + 1) (readU32 input (eocd + 16)) [] false with
          | error e => rw [hwalk] at h; simp at h
          | ok r =>
            rw [hwalk] at h
            simp only [Except.ok.injEq] at h
            rw [← h]
  · intro input s l fuel hle
    have := zipExtraWalkEnc_slice input s l hle fuel 0
    simpa using this

/-- A ZIP archive with one central-directory record: general-purpose flags 0
and a single extra-field record `id = 0x0017, len = 0` whose 4-byte header
ends exactly at the end of the extra area. -/
def c6cex : List Nat :=
  (u32le 0x02014b50 ++ u16le 0 ++ u16le 0 ++
   u16le 0 ++
   u16le 0 ++
   u16le 0 ++ u16le 0 ++
   u32le 0 ++
   u32le 5 ++
   u32le 7 ++
   u16le 1 ++
   u16le 4 ++
   u16le 0 ++
   u16le 0 ++ u16le 0 ++
   u32le 0 ++
   u32le 0 ++
   [0x61] ++
   [0x17, 0x00, 0x00, 0x00]) ++
  (u32le 0x06054b50 ++ u16le 0 ++ u16le 0 ++ u16le 1 ++ u16le 1 ++
   u32le 51 ++ u32le 0 ++ u16le 0)

/-- C6 counterexample: the record's extra area contains an id-0x0017 record
(in the claim's presence sense) and the general-purpose flags are zero, yet
the produced entry's encrypted flag is false — the reader's walk never
examines a record whose header ends at the boundary of the extra area. -/
theorem c6_zip_encrypted_flag_counterexample :
    rspamd_archive_process_zip normEnvTest c6cex =
      .ok { atype := .zip,
            files := [{ fname := [0x61], obfuscated := false, encrypted := false,
                        compressedSize := 5, uncompressedSize := 7 }],
            encrypted := false, hasObfuscatedFiles := false, size := 73 } ∧
    claimExtraHas17 ((c6cex.drop 47).take 4) = true ∧
    readU16 c6cex 8 &&& 0x41 = 0 := by
  refine ⟨rfl, by decide, by decide⟩

/-- Witness for C6: the amended theorem applied to the concrete archive above
(entry flag computation) and to its extra area (strict-walk equality). -/
theorem c6_zip_encrypted_flag_amended_witness :
    ({ atype := .zip,
       files := [{ fname := [0x61], obfuscated := false, encrypted := false,
                   compressedSize := 5, uncompressedSize := 7 }],
       encrypted := false, hasObfuscatedFiles := false, size := 73 } : Archive).encrypted
        = false ∧
    zipExtraWalkEnc c6cex 47 4 5 47 = strictExtraHas17 5 ((c6cex.drop 47).take 4) := by
  constructor
  · exact c6_zip_encrypted_flag_amended.1 normEnvTest c6cex _ rfl
  · exact c6_zip_encrypted_flag_amended.2 c6cex 47 4 5 (by decide)

/-! ### Reader outcome

`errored` records whether the reader took one of its malformed-input
bail-out paths (a `msg_*("... invalid ...")` followed by `return` in the
source); `published` is what ends up attached to the MIME part
(`part->specific.arch`). -/

structure ReaderResult where
  errored : Bool
  published : Option Archive
deriving DecidableEq, Repr

/-! ### Gzip reader (`rspamd_archive_process_gzip`) -/

/-- Index of the last occurrence of `c` (`rspamd_memrchr`). -/
def lastIdxOf (bs : List Nat) (c : Nat) : Option Nat :=
  match bs with
  | [] => none
  | b :: rest =>
    match lastIdxOf rest c with
    | some i => some (i + 1)
    | none => if b == c then some 0 else none

/-- Index of the first occurrence of `c` (`memchr`). -/
def firstIdxOf (bs : List Nat) (c : Nat) : Option Nat :=
  match bs with
  | [] => none
  | b :: rest => if b == c then some 0 else (firstIdxOf rest c).map (· + 1)

/-- The FNAME scan: starting at `q`, the source advances while `p < end`
looking for a NUL; the guard `p > fname_start` means a NUL at `q` itself
does not terminate the scan, so the match is the first NUL at an index
strictly greater than `q` (the name then spans `[q, p)`). -/
def gzipNameScan (env : NormEnv) (input : List Nat) (q : Nat) (archEnc : Bool) :
    ReaderResult :=
  match firstIdxOf (input.drop (q + 1)) 0 with
  | none => { errored := true, published := none }
  | some i =>
    let nm := rspamd_archive_file_try_utf env ((input.drop q).take (i + 1))
    { errored := false
      published := some
        { atype := .gzip
          files := [{ fname := nm.1, obfuscated := nm.2, encrypted := false,
                      compressedSize := 0, uncompressedSize := 0 }]
          encrypted := archEnc
          hasObfuscatedFiles := nm.2
          size := input.length } }

/-- The fallback name derivation from the container filename (used when the
FNAME bit is clear), exactly as the source computes it. -/
def gzipFallback (input : List Nat) (cdName : Option (List Nat)) (archEnc : Bool) :
    ReaderResult :=
  match cdName with
  | none => { errored := false, published := none }
  | some nm =>
    if nm.length > 0 then
      match lastIdxOf nm 0x2E with
      | none => { errored := false, published := none }
      | some dot =>
        let fname :=
          match lastIdxOf nm 0x2F with
          | some slash =>
            if slash < dot then (nm.drop (slash + 1)).take (dot - slash - 1)
            else if firstIdxOf nm 0x2E ≠ some dot then nm.take dot else nm
          | none => if firstIdxOf nm 0x2E ≠ some dot then nm.take dot else nm
        { errored := false
          published := some
            { atype := .gzip
              files := [{ fname := fname, obfuscated := false, encrypted := false,
                          compressedSize := 0, uncompressedSize := 0 }]
              encrypted := archEnc
              hasObfuscatedFiles := false
              size := input.length } }
    else { errored := false, published := none }

/-- Model of `rspamd_archive_process_gzip`.  `cdName` is the injected
container filename (`part->cd->filename`). -/
def rspamd_archive_process_gzip (env : NormEnv) (input : List Nat)
    (cdName : Option (List Nat)) : ReaderResult :=
  if input.length ≤ 10 ∨ ¬ (getB input 0 = 0x1F ∧ getB input 1 = 0x8B) then
    { errored := true, published := none }
  else
    let flags := getB input 3
    let archEnc : Bool := flags &&& 0x20 != 0
    if flags &&& 8 ≠ 0 then
      let p0 := if flags &&& 2 ≠ 0 then 12 else 10
      if flags &&& 4 ≠ 0 then
        if input.length < p0 + 2 then { errored := true, published := none }
        else
          let optlen := readU16 input p0
          if input.length ≤ p0 + 2 + optlen then { errored := true, published := none }
          else gzipNameScan env input (p0 + 2 + optlen) archEnc
      else gzipNameScan env input p0 archEnc
    else gzipFallback input cdName archEnc

/-- The container filename `doc.pdf`. -/
def docPdf : List Nat := [0x64, 0x6F, 0x63, 0x2E, 0x70, 0x64, 0x66]

/-- A minimal gzip input with all FLG bits clear. -/
def c9input : List Nat := [0x1F, 0x8B, 0x08, 0x00, 0, 0, 0, 0, 0, 0, 0x41]

/-- C9 counterexample: with FNAME clear and container filename `doc.pdf`
(which contains a dot), the fallback entry name is the *whole* filename
`doc.pdf`, not `doc` — the final dot-suffix is dropped only when the
filename contains a second dot or a directory separator before the last
dot. -/
theorem c9_gzip_fallback_counterexample :
    rspamd_archive_process_gzip normEnvTest c9input (some docPdf) =
      { errored := false
        published := some
          { atype := .gzip
            files := [{ fname := docPdf, obfuscated := false, encrypted := false,
                        compressedSize := 0, uncompressedSize := 0 }]
            encrypted := false
            hasObfuscatedFiles := false
            size := 11 } } ∧
    docPdf ≠ [0x64, 0x6F, 0x63] ∧
    getB c9input 3 &&& 8 = 0 ∧
    lastIdxOf docPdf 0x2E = some 3 := by
  refine ⟨rfl, by decide, by decide, by decide⟩

/-- C9 (amended): when the FNAME bit is clear and the supplied container
filename contains a dot, the fallback entry name is: the segment strictly
between the last `/` and the last `.` when a `/` occurs before the last `.`;
otherwise everything before the last `.` when the filename contains at least
two dots; otherwise (exactly one dot, coming before any `/` if one exists)
the whole filename, suffix kept. -/
theorem c9_gzip_fallback_amended (env : NormEnv) (input : List Nat)
    (nm : List Nat) (dot : Nat)
    (hlen : ¬ (input.length ≤ 10 ∨ ¬ (getB input 0 = 0x1F ∧ getB input 1 = 0x8B)))
    (hfn : getB input 3 &&& 8 = 0)
    (hnm : nm.length > 0)
    (hdot : lastIdxOf nm 0x2E = some dot) :
    rspamd_archive_process_gzip env input (some nm) =
      { errored := false
        published := some
          { atype := .gzip
            files := [{ fname :=
                          match lastIdxOf nm 0x2F with
                          | some slash =>
                            if slash < dot then (nm.drop (slash + 1)).take (dot - slash - 1)
                            else if firstIdxOf nm 0x2E ≠ some dot then nm.take dot else nm
                          | none => if firstIdxOf nm 0x2E ≠ some dot then nm.take dot else nm
                        obfuscated := false, encrypted := false,
                        compressedSize := 0, uncompressedSize := 0 }]
            encrypted := (getB input 3 &&& 0x20 != 0)
            hasObfuscatedFiles := false
            size := input.length } } := by
  unfold rspamd_archive_process_gzip
  rw [if_neg hlen]
  simp only [hfn]
  rw [if_neg (by simp)]
  unfold gzipFallback
  simp only [if_pos hnm, hdot]

/-- Witness for C9 (amended) at the `doc.pdf` input. -/
theorem c9_gzip_fallback_amended_witness :
    rspamd_archive_process_gzip normEnvTest c9input (some docPdf) =
      { errored := false
        published := some
          { atype := .gzip
            files := [{ fname :=
                          match lastIdxOf docPdf 0x2F with
                          | some slash =>
                            if slash < 3 then (docPdf.drop (slash + 1)).take (3 - slash - 1)
                            else if firstIdxOf docPdf 0x2E ≠ some 3 then docPdf.take 3 else docPdf
                          | none => if firstIdxOf docPdf 0x2E ≠ some 3 then docPdf.take 3 else docPdf
                        obfuscated := false, encrypted := false,
                        compressedSize := 0, uncompressedSize := 0 }]
            encrypted := (getB c9input 3 &&& 0x20 != 0)
            hasObfuscatedFiles := false
            size := c9input.length } } := by
  exact c9_gzip_fallback_amended normEnvTest c9input docPdf 3 (by decide) (by decide)
    (by decide) (by decide)

/-! ### RAR reader (`rspamd_archive_process_rar` and `…_rar_v4`)

Both record walks are modelled as step functions iterated under fuel.  The
step functions mirror one iteration of the corresponding `while` loop
(including every bounds check of the `RAR_*` macros); the loop advances by
the record size computed at the section start. -/

inductive RarOutcome where
  | done (errored : Bool) (published : Option Archive)
  | fuelOut
deriving DecidableEq, Repr

/-- `RAR_READ_VINT_SKIP` argument convention: the vint decoder is called
with the cursor suffix and `remain = end - p`. -/
def rvint (input : List Nat) (p : Nat) : Option (Nat × Nat) :=
  rspamd_archive_rar_read_vint (input.drop p) (input.length - p)

inductive V4Step where
  | fail
  | finishEnc
  | cont (pNext compSz : Nat) (file : Option ArchiveFile)
deriving DecidableEq, Repr

inductive V4Rec where
  | enc
  | record (sz compSz : Nat) (file : Option ArchiveFile)
deriving DecidableEq, Repr

/-- The record-parsing part of one RAR v4 loop iteration (`p < end` checked
by the caller): everything up to the final `p = start_section;
RAR_SKIP_BYTES(sz)`.  `compSz` is the function-scoped `comp_sz` accumulator,
which the source only overwrites when a record carries
`ADD_SIZE`/`HIGH_PACK_SIZE`, so its value persists across records. -/
def rarV4Parse (env : NormEnv) (input : List Nat) (p compSz : Nat) : Option V4Rec :=
  if input.length < p + 2 then none
  else
    let ty := getB input (p + 2)
    if input.length < p + 3 + 2 then none
    else
      let flags := readU16 input (p + 3)
      if ty = 0x73 ∧ flags &&& 0x80 ≠ 0 then some .enc
      else if input.length < p + 5 + 2 then none
      else
        let sz0 := readU16 input (p + 5)
        let withAdd := flags &&& 0x8000 ≠ 0
        if withAdd ∧ input.length < p + 7 + 4 then none
        else
          let add := if withAdd then readU32 input (p + 7) else 0
          let sz1 := sz0 + add
          let compSz1 := if withAdd then add else compSz
          let pd := if withAdd then p + 11 else p + 7
          if sz1 = 0 then none
          else if ty = 0x74 then
            if input.length < pd + 4 then none
            else
              let uncomp := readU32 input pd
              if input.length < pd + 4 + 11 then none
              else if input.length < pd + 15 + 2 then none
              else
                let fnameLen := readU16 input (pd + 15)
                if fnameLen = 0 ∨ fnameLen > input.length - (pd + 17) then none
                else if input.length < pd + 17 + 4 then none
                else
                  let withHigh := flags &&& 0x100 ≠ 0
                  if withHigh ∧ input.length < pd + 21 + 8 then none
                  else
                    let hp := if withHigh then readU32 input (pd + 21) else 0
                    let hu := if withHigh then readU32 input (pd + 25) else 0
                    let sz2 := sz1 + hp
                    let compSz2 := compSz1 + hp
                    let uncomp2 := uncomp + hu
                    let pn := if withHigh then pd + 29 else pd + 21
                    let nameRaw := (input.drop pn).take fnameLen
                    let nm :=
                      if flags &&& 0x200 ≠ 0 then
                        match firstIdxOf nameRaw 0 with
                        | some k => rspamd_archive_file_try_utf env (nameRaw.take k)
                        | none => rspamd_archive_file_try_utf env nameRaw
                      else rspamd_archive_file_try_utf env nameRaw
                    let f : ArchiveFile :=
                      { fname := nm.1
                        obfuscated := nm.2
                        encrypted := flags &&& 0x4 != 0
                        compressedSize := compSz2
                        uncompressedSize := uncomp2 }
                    some (.record sz2 compSz2 (some f))
          else some (.record sz1 compSz1 none)

/-- One iteration of the RAR v4 record loop: parse the record, then advance
the cursor from the section start by the computed size
(`RAR_SKIP_BYTES(sz)`: a zero size or a size beyond the remaining bytes
rejects the archive). -/
def rarV4Step (env : NormEnv) (input : List Nat) (p compSz : Nat) : V4Step :=
  match rarV4Parse env input p compSz with
  | none => .fail
  | some .enc => .finishEnc
  | some (.record sz c2 f) =>
    if sz = 0 then .fail
    else if input.length - p < sz then .fail
    else .cont (p + sz) c2 f

/-- The RAR v4 record loop (entered just after the 7-byte v4 magic). -/
def rarV4Loop (env : NormEnv) (input : List Nat) :
    Nat → Nat → Nat → List ArchiveFile → Bool → RarOutcome
  | 0, _, _, _, _ => .fuelOut
  | fuel + 1, p, compSz, files, hasObf =>
    if p < input.length then
      match rarV4Step env input p compSz with
      | .fail => .done true none
      | .finishEnc =>
        .done false (some { atype := .rar, files := files, encrypted := true,
                            hasObfuscatedFiles := hasObf, size := input.length })
      | .cont p2 c2 file? =>
        rarV4Loop env input fuel p2 c2 (files ++ file?.toList)
          (hasObf || (match file? with | some f => f.obfuscated | none => false))
    else
      .done false (some { atype := .rar, files := files, encrypted := false,
                          hasObfuscatedFiles := hasObf, size := input.length })

/-! #### RAR v5 -/

inductive ExtraStep where
  | fail
  | foundEnc
  | advance (ex : Nat)
deriving DecidableEq, Repr

/-- One iteration of the v5 extra-area scan: the record-size and type vints
are decoded with `remain = extra_sz` and `extra_sz - r` (as the source
passes them), and the cursor then advances by the *size value* `cur_sz` —
which may be zero, in which case the scan does not advance. -/
def rarV5ExtraStep (input : List Nat) (extraSz ex : Nat) : ExtraStep :=
  match rspamd_archive_rar_read_vint (input.drop ex) extraSz with
  | none => .fail
  | some (curSz, r) =>
    match rspamd_archive_rar_read_vint (input.drop (ex + r)) (extraSz - r) with
    | none => .fail
    | some (secType, _) =>
      if secType = 1 then .foundEnc else .advance (ex + curSz)

inductive ExtraOut where
  | fail
  | foundEnc
  | ended
  | hung
deriving DecidableEq, Repr

/-- The v5 extra-area scan loop: `ex` starts at `namePos + fname_len` and the
guard is `ex < namePos + extra_sz`. -/
def rarV5ExtraWalk (input : List Nat) (namePos extraSz : Nat) :
    Nat → Nat → ExtraOut
  | 0, _ => .hung
  | fuel + 1, ex =>
    if ex < namePos + extraSz then
      match rarV5ExtraStep input extraSz ex with
      | .fail => .fail
      | .foundEnc => .foundEnc
      | .advance ex2 => rarV5ExtraWalk input namePos extraSz fuel ex2
    else .ended

inductive V5Step where
  | fail
  | hang
  | cont (pNext compSz : Nat) (file : Option ArchiveFile) (archEnc : Bool)
deriving DecidableEq, Repr

inductive V5Rec where
  | hang
  | record (sz compSz : Nat) (file : Option ArchiveFile) (archEnc : Bool)
deriving DecidableEq, Repr

/-- The part of a RAR v5 loop iteration from the section start `pS` (just
after the size vint) to just before the final `p = section_start;
RAR_SKIP_BYTES(sz)`: type and header-flags vints, the optional extra and
data zones, and for file records the name and extra-area scan. -/
def rarV5ParseBody (env : NormEnv) (input : List Nat) (exFuel pS compSz sz0 : Nat) :
    Option V5Rec :=
  match rvint input pS with
        | none => none
        | some (ty, r2) =>
          match rvint input (pS + r2) with
          | none => none
          | some (hflags, r3) =>
            let p4 := pS + r2 + r3
            match (if hflags &&& 1 ≠ 0 then rvint input p4 else some (0, 0)) with
            | none => none
            | some (extraSz, r4) =>
              let hasExtra := hflags &&& 1 ≠ 0
              let p5 := p4 + r4
              match (if hflags &&& 2 ≠ 0 then rvint input p5 else some (0, 0)) with
              | none => none
              | some (dataSz, r5) =>
                let sz1 := if hflags &&& 2 ≠ 0 then sz0 + dataSz else sz0
                let compSz1 := if hflags &&& 2 ≠ 0 then dataSz else compSz
                let p6 := p5 + r5
                if ty ≠ 2 then
                  some (.record sz1 compSz1 none false)
                else
                  match rvint input p6 with
                  | none => none
                  | some (fflags, r6) =>
                    match rvint input (p6 + r6) with
                    | none => none
                    | some (uncomp, r7) =>
                      match rvint input (p6 + r6 + r7) with
                      | none => none
                      | some (_, r8) =>
                        let p9 := p6 + r6 + r7 + r8
                        if fflags &&& 2 ≠ 0 ∧ input.length < p9 + 4 then none
                        else
                          let p10 := if fflags &&& 2 ≠ 0 then p9 + 4 else p9
                          if fflags &&& 4 ≠ 0 ∧ input.length < p10 + 4 then none
                          else
                            let p11 := if fflags &&& 4 ≠ 0 then p10 + 4 else p10
                            if fflags &&& 1 ≠ 0 then
                              -- directory record: skip without adding a file
                              some (.record sz1 compSz1 none false)
                            else
                              match rvint input p11 with
                              | none => none
                              | some (_, r9) =>
                                match rvint input (p11 + r9) with
                                | none => none
                                | some (_, r10) =>
                                  match rvint input (p11 + r9 + r10) with
                                  | none => none
                                  | some (fnameLen, r11) =>
                                    let pn := p11 + r9 + r10 + r11
                                    if fnameLen = 0 ∨ fnameLen > input.length - pn then
                                      none
                                    else
                                      let nm := rspamd_archive_file_try_utf env
                                        ((input.drop pn).take fnameLen)
                                      if hasExtra ∧ extraSz > 0 ∧
                                          pn + fnameLen + extraSz < input.length then
                                        match rarV5ExtraWalk input pn extraSz exFuel
                                            (pn + fnameLen) with
                                        | .fail => none
                                        | .hung => some .hang
                                        | .foundEnc =>
                                          some (.record sz1 compSz1
                                            (some { fname := nm.1, obfuscated := nm.2,
                                                    encrypted := true,
                                                    compressedSize := compSz1,
                                                    uncompressedSize := uncomp }) true)
                                        | .ended =>
                                          some (.record sz1 compSz1
                                            (some { fname := nm.1, obfuscated := nm.2,
                                                    encrypted := false,
                                                    compressedSize := compSz1,
                                                    uncompressedSize := uncomp }) false)
                                      else
                                        some (.record sz1 compSz1
                                          (some { fname := nm.1, obfuscated := nm.2,
                                                  encrypted := false,
                                                  compressedSize := compSz1,
                                                  uncompressedSize := uncomp }) false)

/-- One iteration of the RAR v5 record loop: skip the crc32, read the size
vint (zero is rejected), parse the rest of the record from the section
start, then advance the cursor from the section start by the record size
(`RAR_SKIP_BYTES(sz)`). -/
def rarV5Step (env : NormEnv) (input : List Nat) (exFuel p compSz : Nat) : V5Step :=
  if input.length < p + 4 then .fail
  else
    match rvint input (p + 4) with
    | none => .fail
    | some (sz0, r1) =>
      if sz0 = 0 then .fail
      else
        let pS := p + 4 + r1
        match rarV5ParseBody env input exFuel pS compSz sz0 with
        | none => .fail
        | some .hang => .hang
        | some (.record sz c2 f e) =>
          if sz = 0 then .fail
          else if input.length - pS < sz then .fail
          else .cont (pS + sz) c2 f e

/-- The RAR v5 record loop; the current fuel also bounds the extra-area scan
of the step. -/
def rarV5Loop (env : NormEnv) (input : List Nat) :
    Nat → Nat → Nat → List ArchiveFile → Bool → Bool → RarOutcome
  | 0, _, _, _, _, _ => .fuelOut
  | fuel + 1, p, compSz, files, hasObf, archEnc =>
    if p < input.length then
      match rarV5Step env input fuel p compSz with
      | .fail => .done true none
      | .hang => .fuelOut
      | .cont p2 c2 file? enc2 =>
        rarV5Loop env input fuel p2 c2 (files ++ file?.toList)
          (hasObf || (match file? with | some f => f.obfuscated | none => false))
          (archEnc || enc2)
    else
      .done false (some { atype := .rar, files := files, encrypted := archEnc,
                          hasObfuscatedFiles := hasObf, size := input.length })

/-- Model of `rspamd_archive_process_rar`: dispatch on the v5/v4 magics, for
v5 parse the first header (encryption header type 4 publishes an encrypted
empty archive; anything other than the main header type 1 rejects), then
walk the records. -/
def rspamd_archive_process_rar (env : NormEnv) (input : List Nat) (fuel : Nat) :
    RarOutcome :=
  if input.length ≤ 8 then .done true none
  else if input.take 8 = [0x52, 0x61, 0x72, 0x21, 0x1A, 0x07, 0x01, 0x00] then
    -- v5: crc32, then size/type/flags vints of the first header
    if input.length < 12 then .done true none
    else
      match rvint input 12 with
      | none => .done true none
      | some (sz0, r1) =>
        let pS := 12 + r1
        match rvint input pS with
        | none => .done true none
        | some (ty, r2) =>
          match rvint input (pS + r2) with
          | none => .done true none
          | some (hflags, r3) =>
            let p4 := pS + r2 + r3
            match (if hflags &&& 1 ≠ 0 then rvint input p4 else some (0, 0)) with
            | none => .done true none
            | some (_, r4) =>
              let p5 := p4 + r4
              match (if hflags &&& 2 ≠ 0 then rvint input p5 else some (0, 0)) with
              | none => .done true none
              | some (dataSz, _) =>
                let sz1 := if hflags &&& 2 ≠ 0 then sz0 + dataSz else sz0
                if ty = 4 then
                  .done false (some { atype := .rar, files := [], encrypted := true,
                                      hasObfuscatedFiles := false,
                                      size := input.length })
                else if ty ≠ 1 then .done true none
                else if sz1 = 0 then .done true none
                else if input.length - pS < sz1 then .done true none
                else rarV5Loop env input fuel (pS + sz1) 0 [] false false
  else if input.take 7 = [0x52, 0x61, 0x72, 0x21, 0x1A, 0x07, 0x00] then
    rarV4Loop env input fuel 7 0 [] false
  else .done true none

/-- Every completed iteration of the v4 record loop strictly advances the
cursor and stays within the input: the computed record size was checked
nonzero and within the remaining bytes. -/
lemma rarV4Step_advance (env : NormEnv) (input : List Nat) (p c p2 c2 : Nat)
    (f : Option ArchiveFile) (h : rarV4Step env input p c = .cont p2 c2 f) :
    p < p2 ∧ p2 ≤ input.length := by
  unfold rarV4Step at h
  cases hp : rarV4Parse env input p c with
  | none => rw [hp] at h; simp at h
  | some r =>
    rw [hp] at h
    cases r with
    | enc => simp at h
    | record sz c2a f0 =>
      simp only at h
      split at h
      · simp at h
      · split at h
        · simp at h
        · simp only [V4Step.cont.injEq] at h
          obtain ⟨h1, _, _⟩ := h
          subst h1
          constructor <;> omega

/-- With fuel exceeding the remaining byte count, the v4 walk never runs
out: each iteration strictly advances the cursor. -/
lemma rarV4Loop_terminates (env : NormEnv) (input : List Nat) :
    ∀ (fuel p c : Nat) (files : List ArchiveFile) (obf : Bool),
      input.length - p < fuel →
      rarV4Loop env input fuel p c files obf ≠ .fuelOut := by
  intro fuel
  induction fuel with
  | zero => intro p c files obf h; omega
  | succ n ih =>
    intro p c files obf h
    simp only [rarV4Loop]
    split
    · cases hstep : rarV4Step env input p c with
      | fail => simp
      | finishEnc => simp
      | cont p2 c2 file? =>
        have hadv := rarV4Step_advance env input p c p2 c2 file? hstep
        exact ih p2 c2 _ _ (by omega)
    · simp

/-- Every completed iteration of the v5 record loop strictly advances the
cursor and stays within the input. -/
lemma rarV5Step_advance (env : NormEnv) (input : List Nat) (xf p c p2 c2 : Nat)
    (f : Option ArchiveFile) (e : Bool)
    (h : rarV5Step env input xf p c = .cont p2 c2 f e) :
    p < p2 ∧ p2 ≤ input.length := by
  unfold rarV5Step at h
  split at h
  · simp at h
  · split at h
    · simp at h
    · split at h
      · simp at h
      · dsimp only at h
        split at h
        · simp at h
        · simp at h
        · split at h
          · simp at h
          · split at h
            · simp at h
            · simp only [V5Step.cont.injEq] at h
              obtain ⟨h1, _, _, _⟩ := h
              subst h1
              constructor <;> omega

/-- A RAR v5 archive whose single file record carries an extra area of two
bytes `00 02`: the extra-record size vint decodes to 0 and its type vint to
2 (not the encryption type 1), so the extra scan's cursor never advances. -/
def c10cex : List Nat :=
  [0x52, 0x61, 0x72, 0x21, 0x1A, 0x07, 0x01, 0x00,
   0, 0, 0, 0,
   0x02, 0x01, 0x00,
   0, 0, 0, 0,
   0x0C, 0x02, 0x01, 0x02, 0x00, 0x00, 0x00, 0x00, 0x00, 0x01, 0x61,
   0x00, 0x02, 0x00]

lemma c10_extra_walk_hangs (fuel : Nat) :
    rarV5ExtraWalk c10cex 29 2 fuel 30 = .hung := by
  induction fuel with
  | zero => rfl
  | succ n ih =>
    have hstep : rarV5ExtraStep c10cex 2 30 = .advance 30 := rfl
    have hred : rarV5ExtraWalk c10cex 29 2 (n + 1) 30 =
        rarV5ExtraWalk c10cex 29 2 n 30 := by
      simp only [rarV5ExtraWalk]
      rw [if_pos (by norm_num : (30 : Nat) < 29 + 2), hstep]
    rw [hred]
    exact ih

lemma c10_step_hangs (xf : Nat) :
    rarV5Step normEnvTest c10cex xf 15 0 = .hang := by
  induction xf with
  | zero => rfl
  | succ n ih =>
    have hred : rarV5Step normEnvTest c10cex (n + 1) 15 0 =
        rarV5Step normEnvTest c10cex n 15 0 := rfl
    rw [hred]
    exact ih

lemma c10_process_hangs (fuel : Nat) :
    rspamd_archive_process_rar normEnvTest c10cex fuel = .fuelOut := by
  have hpre : rspamd_archive_process_rar normEnvTest c10cex fuel =
      rarV5Loop normEnvTest c10cex fuel 15 0 [] false false := rfl
  rw [hpre]
  cases fuel with
  | zero => rfl
  | succ n =>
    simp only [rarV5Loop]
    rw [if_pos (by decide : 15 < c10cex.length), c10_step_hangs n]

/-- C10 counterexample: inside the v5 file record's extra-area scan the
claimed strict advance fails — on the concrete archive the scan's step maps
cursor 30 to cursor 30 while the loop guard `30 < 29 + 2` still holds, and
the whole reader runs out of any amount of fuel. -/
theorem c10_rar_walk_counterexample :
    rarV5ExtraStep c10cex 2 30 = .advance 30 ∧
    30 < 29 + 2 ∧
    rspamd_archive_process_rar normEnvTest c10cex 1000 = .fuelOut := by
  exact ⟨rfl, by norm_num, c10_process_hangs 1000⟩

/-- C10 (amended): every completed iteration of the v4 and v5 record loops
strictly advances the record cursor (zero computed sizes and sizes beyond
the remaining input are rejected), and the v4 walk terminates on every
input; but the v5 walk need not terminate — the extra-area scan inside a
file record advances by a record-size vint that can decode to zero, and on
the concrete archive `c10cex` the reader exhausts every fuel bound. -/
theorem c10_rar_record_walk_amended :
    (∀ (env : NormEnv) (input : List Nat) (p c p2 c2 : Nat) (f : Option ArchiveFile),
      rarV4Step env input p c = .cont p2 c2 f → p < p2 ∧ p2 ≤ input.length) ∧
    (∀ (env : NormEnv) (input : List Nat) (fuel p c : Nat) (files : List ArchiveFile)
      (obf : Bool), input.length - p < fuel →
      rarV4Loop env input fuel p c files obf ≠ .fuelOut) ∧
    (∀ (env : NormEnv) (input : List Nat) (xf p c p2 c2 : Nat) (f : Option ArchiveFile)
      (e : Bool), rarV5Step env input xf p c = .cont p2 c2 f e →
      p < p2 ∧ p2 ≤ input.length) ∧
    (∀ fuel, rspamd_archive_process_rar normEnvTest c10cex fuel = .fuelOut) := by
  exact ⟨fun env input p c p2 c2 f h => rarV4Step_advance env input p c p2 c2 f h,
    fun env input fuel p c files obf h => rarV4Loop_terminates env input fuel p c files obf h,
    fun env input xf p c p2 c2 f e h => rarV5Step_advance env input xf p c p2 c2 f e h,
    c10_process_hangs⟩

/-- A v4 archive with one skippable record of size 7. -/
def c10v4wit : List Nat :=
  [0x52, 0x61, 0x72, 0x21, 0x1A, 0x07, 0x00,
   0, 0, 0x00, 0x00, 0x00, 0x07, 0x00]

/-- A v5 archive whose single loop record has type 3 (skipped) and size 2. -/
def c10v5wit : List Nat :=
  [0x52, 0x61, 0x72, 0x21, 0x1A, 0x07, 0x01, 0x00,
   0, 0, 0, 0,
   0x02, 0x01, 0x00,
   0, 0, 0, 0,
   0x02, 0x03, 0x00]

/-- Witness for C10 (amended), applying every conjunct at a concrete
archive. -/
theorem c10_rar_record_walk_amended_witness :
    (7 < 14 ∧ 14 ≤ c10v4wit.length) ∧
    rarV4Loop normEnvTest c10v4wit 15 7 0 [] false ≠ .fuelOut ∧
    (15 < 22 ∧ 22 ≤ c10v5wit.length) ∧
    rspamd_archive_process_rar normEnvTest c10cex 5 = .fuelOut := by
  refine ⟨?_, ?_, ?_, c10_rar_record_walk_amended.2.2.2 5⟩
  · have h := c10_rar_record_walk_amended.1 normEnvTest c10v4wit 7 0 14 0 none rfl
    exact ⟨h.1, h.2⟩
  · exact c10_rar_record_walk_amended.2.1 normEnvTest c10v4wit 15 7 0 [] false (by decide)
  · have h := c10_rar_record_walk_amended.2.2.1 normEnvTest c10v5wit 5 15 0 22 0 none false rfl
    exact ⟨h.1, h.2⟩

/-! ### 7-Zip reader (`rspamd_archive_process_7zip` and helpers)

The section handlers are modelled one-to-one; `while` loops take fuel
(`.fuelOut` is a modelling artifact), `for` loops bounded by a parsed count
recurse on the count with the source's own `p < end` guards.  The `junk`
parameter stands for the uninitialized memory the 7-Zip vint decoder copies
over (see the vint section) and for uninitialized or out-of-bounds array
entries.  The ICU-based UCS-2 name conversion and the libarchive handling
of encoded headers are environment collaborators. -/

structure SzEnv where
  ucs2 : List Nat → Option (List Nat)
  libarchive : List Nat → Option (List ArchiveFile × Bool)

/-- `SZ_SKIP_BYTES(n)`: advance when `end - p >= n`, otherwise fail. -/
def szSkip (input : List Nat) (p n : Nat) : Option Nat :=
  if n ≤ input.length - p then some (p + n) else none

/-- `SZ_READ_VINT` at cursor `p` (the decoder receives the byte suffix;
`remain` equals its length at every call site). -/
def szvint (junk : Nat) (input : List Nat) (p : Nat) : Option (Nat × Nat) :=
  match rspamd_archive_7zip_read_vint junk (input.drop p) with
  | none => none
  | some (v, r) => some (v, p + r)

def szReadVints (junk : Nat) (input : List Nat) : Nat → Nat → Option Nat
  | 0, p => some p
  | count + 1, p =>
    match szvint junk input p with
    | none => none
    | some (_, p2) => szReadVints junk input count p2

/-- The codec-id accumulation `tmp = (tmp << 8) + p[j]` in `uint64_t`. -/
def beVal64 (bs : List Nat) : Nat :=
  bs.foldl (fun a b => (a * 256 + b % 256) % 2 ^ 64) 0

/-- `uint64_t` reinterpreted as `int64_t` (for `npacked`). -/
def i64 (n : Nat) : Int :=
  if n % 2 ^ 64 < 2 ^ 63 then ((n % 2 ^ 64 : Nat) : Int)
  else ((n % 2 ^ 64 : Nat) : Int) - 2 ^ 64

/-- `(*ndigests) += npacked` on an `unsigned int`. -/
def szDigInc (nd : Nat) (npacked : Int) : Nat :=
  (((nd : Int) + npacked) % (2 ^ 32 : Int)).toNat

/-- Count of set bits among the first `nbits` bits at `p`, MSB first
(`rspamd_7zip_read_bits`' accumulator). -/
def szBitsSet (input : List Nat) (p nbits : Nat) : Nat :=
  ((List.range nbits).filter
    (fun i => (getB input (p + i / 8)).testBit (7 - i % 8))).length

/-- Model of `rspamd_7zip_read_bits`: one source byte per eight bits, each
obtained through `SZ_SKIP_BYTES(1)`; returns the new cursor and the number
of set bits. -/
def rspamd_7zip_read_bits (input : List Nat) (p nbits : Nat) :
    Option (Nat × Nat) :=
  if (nbits + 7) / 8 ≤ input.length - p then
    some (p + (nbits + 7) / 8, szBitsSet input p nbits)
  else none

/-- Model of `rspamd_7zip_read_digest`: the all-defined byte (assigning a
`uint64_t` count to an `unsigned int` truncates), the optional defined-bits
vector, then four bytes per defined digest.  Returns the new cursor and the
defined count. -/
def rspamd_7zip_read_digest (input : List Nat) (p numStreams : Nat) :
    Option (Nat × Nat) :=
  let allDefined := getB input p
  if 1 ≤ input.length - p then
    if allDefined ≠ 0 then
      let nd := numStreams % 2 ^ 32
      if 4 * nd ≤ input.length - (p + 1) then some (p + 1 + 4 * nd, nd) else none
    else if numStreams > 8192 then none
    else
      match rspamd_7zip_read_bits input (p + 1) numStreams with
      | none => none
      | some (p2, nd) =>
        if 4 * nd ≤ input.length - p2 then some (p2 + 4 * nd, nd) else none
  else none

inductive SzPtr where
  | ok (p : Nat)
  | err
  | fuelOut
deriving DecidableEq, Repr

/-- The `while` loop of `rspamd_7zip_read_pack_info` over the kSize / kCRC /
kEnd tags. -/
def szPackInfoLoop (junk : Nat) (input : List Nat) (packStreams : Nat) :
    Nat → Nat → SzPtr
  | 0, _ => .fuelOut
  | fuel + 1, p =>
    if p < input.length then
      let t := getB input p
      let p1 := p + 1
      if t = 0x09 then
        match szReadVints junk input packStreams p1 with
        | none => .err
        | some p2 => szPackInfoLoop junk input packStreams fuel p2
      else if t = 0x0A then
        match rspamd_7zip_read_digest input p1 packStreams with
        | none => .err
        | some (p2, _) => szPackInfoLoop junk input packStreams fuel p2
      else if t = 0 then .ok p1
      else .err
    else .ok p

/-- Model of `rspamd_7zip_read_pack_info`. -/
def rspamd_7zip_read_pack_info (junk : Nat) (input : List Nat) (fuel p : Nat) :
    SzPtr :=
  match szvint junk input p with
  | none => .err
  | some (_, p1) =>
    match szvint junk input p1 with
    | none => .err
    | some (packStreams, p2) => szPackInfoLoop junk input packStreams fuel p2

inductive SzFold where
  | ok (p nin nout : Nat) (enc : Bool)
  | fail (enc : Bool)
deriving DecidableEq, Repr

inductive SzFolder where
  | ok (p nstreams : Nat) (npacked : Int) (enc : Bool)
  | fail (enc : Bool)
deriving DecidableEq, Repr

/-- The attributes tail of one coder (`t & (1 << 5)`). -/
def szFolderAttr (junk : Nat) (input : List Nat) (t p : Nat) : Option Nat :=
  if t.testBit 5 then
    match szvint junk input p with
    | none => none
    | some (asz, p2) => szSkip input p2 asz
  else some p

/-- The coder loop of `rspamd_7zip_read_folder`: the codec id is read (and
the encrypted flag possibly set) before the bytes are skipped, so the flag
survives a failing skip, exactly as `arch->flags` does in the source.
Out-of-bounds codec-id bytes read 0 (see `getB`). -/
def szFolderCoders (junk : Nat) (input : List Nat) :
    Nat → Nat → Nat → Nat → Bool → SzFold
  | 0, p, nin, nout, enc => .ok p nin nout enc
  | count + 1, p, nin, nout, enc =>
    if p < input.length then
      let t := getB input p
      let p1 := p + 1
      let sz := t &&& 0xF
      let codec := beVal64 ((List.range sz).map (fun j => getB input (p1 + j)))
      let enc1 := enc || (codec == 0x06F10101 || codec == 0x06F10303 ||
        codec == 0x06F10701)
      match szSkip input p1 sz with
      | none => .fail enc1
      | some p2 =>
        if t.testBit 4 then
          match szvint junk input p2 with
          | none => .fail enc1
          | some (ins, p3) =>
            match szvint junk input p3 with
            | none => .fail enc1
            | some (outs, p4) =>
              match szFolderAttr junk input t p4 with
              | none => .fail enc1
              | some p5 =>
                szFolderCoders junk input count p5 ((nin + ins) % 2 ^ 64)
                  ((nout + outs) % 2 ^ 64) enc1
        else
          match szFolderAttr junk input t p2 with
          | none => .fail enc1
          | some p5 =>
            szFolderCoders junk input count p5 ((nin + 1) % 2 ^ 64)
              ((nout + 1) % 2 ^ 64) enc1
    else .ok p nin nout enc

/-- Model of `rspamd_7zip_read_folder`: coders, bind pairs when more than
one out stream, packed-stream indices when `npacked > 1`; returns the
truncated out-stream count and the (possibly negative) `npacked`. -/
def rspamd_7zip_read_folder (junk : Nat) (input : List Nat) (p : Nat)
    (enc : Bool) : SzFolder :=
  match szvint junk input p with
  | none => .fail enc
  | some (ncoders, p1) =>
    match szFolderCoders junk input ncoders p1 0 0 enc with
    | .fail enc2 => .fail enc2
    | .ok p2 nin nout enc2 =>
      match (if nout > 1 then szReadVints junk input (2 * (nout - 1)) p2
          else some p2) with
      | none => .fail enc2
      | some p3 =>
        let npacked : Int := i64 nin - i64 nout + 1
        match (if npacked > 1 then szReadVints junk input npacked.toNat p3
            else some p3) with
        | none => .fail enc2
        | some p4 => .ok p4 (nout % 2 ^ 32) npacked enc2

/-- The folder loop inside the kFolder case of
`rspamd_7zip_read_coders_info` (guarded by `p < end`); accumulates the
per-folder out-stream counts and the digest counter. -/
def szFoldersLoop (junk : Nat) (input : List Nat) :
    Nat → Nat → List Nat → Nat → Bool → (Option Nat × List Nat × Nat × Bool)
  | 0, p, acc, nd, enc => (some p, acc, nd, enc)
  | count + 1, p, acc, nd, enc =>
    if p < input.length then
      match rspamd_7zip_read_folder junk input p enc with
      | .fail enc2 => (none, acc, nd, enc2)
      | .ok p2 nstreams npacked enc2 =>
        szFoldersLoop junk input count p2 (acc ++ [nstreams])
          (szDigInc nd npacked) enc2
    else (some p, acc, nd, enc)

/-- The kCodersUnPackSize walk: one unpacked-size vint per stream of each
folder, each folder guarded by `p < end`. -/
def szUnpackSizes (junk : Nat) (input : List Nat) : List Nat → Nat → Option Nat
  | [], p => some p
  | n :: rest, p =>
    if p < input.length then
      match szReadVints junk input n p with
      | none => none
      | some p2 => szUnpackSizes junk input rest p2
    else some p

inductive SzCoders where
  | ok (p numFolders numNodigest : Nat) (enc : Bool)
  | err (enc : Bool)
  | fuelOut
deriving DecidableEq, Repr

/-- The `while` loop of `rspamd_7zip_read_coders_info`.  `fns` is the
`folder_nstreams` array (`none` until a non-external kFolder allocates it);
entries the folder loop did not fill, and reads past the allocated size, are
uninitialized memory, modelled by `junk`.  The kEnd outputs truncate to
`unsigned int` and subtract with wrap-around. -/
def szCodersLoop (junk : Nat) (input : List Nat) :
    Nat → Nat → Nat → Option (List Nat) → Nat → Nat → Bool → SzCoders
  | 0, _, _, _, _, _, _ => .fuelOut
  | fuel + 1, p, nf, fns, nd, dr, enc =>
    if p < input.length then
      let t := getB input p
      let p1 := p + 1
      if t = 0x0B then
        match szvint junk input p1 with
        | none => .err enc
        | some (nf2, p2) =>
          let ext := getB input p2
          if ext ≠ 0 then
            match szSkip input p2 1 with
            | none => .err enc
            | some p3 =>
              match szvint junk input p3 with
              | none => .err enc
              | some (_, p4) => szCodersLoop junk input fuel p4 nf2 fns nd dr enc
          else
            match szSkip input p2 1 with
            | none => .err enc
            | some p3 =>
              if nf2 > 8192 then .err enc
              else
                match szFoldersLoop junk input nf2 p3 [] nd enc with
                | (none, _, _, enc2) => .err enc2
                | (some p4, lst, nd2, enc2) =>
                  szCodersLoop junk input fuel p4 nf2
                    (some (lst ++ List.replicate (nf2 - lst.length) (junk % 2 ^ 32)))
                    nd2 dr enc2
      else if t = 0x0C then
        match fns with
        | none => szCodersLoop junk input fuel p1 nf fns nd dr enc
        | some lst =>
          match szUnpackSizes junk input
              ((List.range nf).map (fun i => lst.getD i (junk % 2 ^ 32))) p1 with
          | none => .err enc
          | some p2 => szCodersLoop junk input fuel p2 nf fns nd dr enc
      else if t = 0x0A then
        match rspamd_7zip_read_digest input p1 nd with
        | none => .err enc
        | some (p2, ndef) => szCodersLoop junk input fuel p2 nf fns nd ndef enc
      else if t = 0 then
        .ok p1 (nf % 2 ^ 32) ((nd + 2 ^ 32 - dr % 2 ^ 32) % 2 ^ 32) enc
      else .err enc
    else .ok p (nf % 2 ^ 32) ((nd + 2 ^ 32 - dr % 2 ^ 32) % 2 ^ 32) enc

/-- Model of `rspamd_7zip_read_coders_info`. -/
def rspamd_7zip_read_coders_info (junk : Nat) (input : List Nat) (fuel p : Nat)
    (enc : Bool) : SzCoders :=
  szCodersLoop junk input fuel p 0 none 0 0 enc

def szReadVintVals (junk : Nat) (input : List Nat) :
    Nat → Nat → Option (List Nat × Nat)
  | 0, p => some ([], p)
  | count + 1, p =>
    match szvint junk input p with
    | none => none
    | some (v, p2) =>
      match szReadVintVals junk input count p2 with
      | none => none
      | some (vs, p3) => some (v :: vs, p3)

/-- The kSize walk of the substreams section (no `p < end` guard in the
source's nested loops). -/
def szSizesNoGuard (junk : Nat) (input : List Nat) : List Nat → Nat → Option Nat
  | [], p => some p
  | n :: rest, p =>
    match szReadVints junk input n p with
    | none => none
    | some p2 => szSizesNoGuard junk input rest p2

/-- The `while` loop of `rspamd_7zip_read_substreams_info`; `lst` is the
zero-initialized `folder_nstreams` array of `num_folders` entries. -/
def szSubstreamsLoop (junk : Nat) (input : List Nat) (numNodigest : Nat) :
    Nat → Nat → List Nat → SzPtr
  | 0, _, _ => .fuelOut
  | fuel + 1, p, lst =>
    if p < input.length then
      let t := getB input p
      let p1 := p + 1
      if t = 0x0D then
        match szReadVintVals junk input lst.length p1 with
        | none => .err
        | some (vals, p2) => szSubstreamsLoop junk input numNodigest fuel p2 vals
      else if t = 0x0A then
        match rspamd_7zip_read_digest input p1 numNodigest with
        | none => .err
        | some (p2, _) => szSubstreamsLoop junk input numNodigest fuel p2 lst
      else if t = 0x09 then
        match szSizesNoGuard junk input lst p1 with
        | none => .err
        | some p2 => szSubstreamsLoop junk input numNodigest fuel p2 lst
      else if t = 0 then .ok p1
      else .err
    else .ok p

/-- Model of `rspamd_7zip_read_substreams_info`. -/
def rspamd_7zip_read_substreams_info (junk : Nat) (input : List Nat)
    (fuel p numFolders numNodigest : Nat) : SzPtr :=
  if numFolders > 8192 then .err
  else szSubstreamsLoop junk input numNodigest fuel p
    (List.replicate numFolders 0)

inductive SzMain where
  | ok (p : Nat) (enc : Bool)
  | err (enc : Bool)
  | fuelOut
deriving DecidableEq, Repr

/-- The `while` loop of `rspamd_7zip_read_main_streams_info`. -/
def szMainLoop (junk : Nat) (input : List Nat) :
    Nat → Nat → Nat → Nat → Bool → SzMain
  | 0, _, _, _, _ => .fuelOut
  | fuel + 1, p, nf, ud, enc =>
    if p < input.length then
      let t := getB input p
      let p1 := p + 1
      if t = 0x06 then
        match rspamd_7zip_read_pack_info junk input fuel p1 with
        | .fuelOut => .fuelOut
        | .err => .err enc
        | .ok p2 => szMainLoop junk input fuel p2 nf ud enc
      else if t = 0x07 then
        match rspamd_7zip_read_coders_info junk input fuel p1 enc with
        | .fuelOut => .fuelOut
        | .err enc2 => .err enc2
        | .ok p2 nf2 nod enc2 => szMainLoop junk input fuel p2 nf2 nod enc2
      else if t = 0x08 then
        match rspamd_7zip_read_substreams_info junk input fuel p1 nf ud with
        | .fuelOut => .fuelOut
        | .err => .err enc
        | .ok p2 => szMainLoop junk input fuel p2 nf ud enc
      else if t = 0 then .ok p1 enc
      else .err enc
    else .ok p enc

/-- Model of `rspamd_7zip_read_main_streams_info`. -/
def rspamd_7zip_read_main_streams_info (junk : Nat) (input : List Nat)
    (fuel p : Nat) (enc : Bool) : SzMain :=
  szMainLoop junk input fuel p 0 0 enc

/-- The property loop of `rspamd_7zip_read_archive_props`. -/
def szPropsLoop (junk : Nat) (input : List Nat) :
    Nat → Nat → Nat → SzPtr
  | 0, _, _ => .fuelOut
  | fuel + 1, p, proptype =>
    if proptype ≠ 0 then
      match szvint junk input p with
      | none => .err
      | some (plen, p1) =>
        if p1 + plen < input.length then
          let t2 := getB input (p1 + plen)
          match szSkip input (p1 + plen) 1 with
          | none => .err
          | some p3 => szPropsLoop junk input fuel p3 t2
        else .err
    else .ok p

/-- Model of `rspamd_7zip_read_archive_props`. -/
def rspamd_7zip_read_archive_props (junk : Nat) (input : List Nat)
    (fuel p : Nat) : SzPtr :=
  let t := getB input p
  match szSkip input p 1 with
  | none => .err
  | some p1 => szPropsLoop junk input fuel p1 t

/-- The zero-terminator scan of a UCS-2 name: the first even step `tp` from
`p` with `tp < end - 1` and two zero bytes at `tp`. -/
def szWcharTerm (input : List Nat) (p : Nat) : Option Nat :=
  ((List.range (input.length / 2 + 1)).find? (fun j =>
      decide (p + 2 * j + 2 ≤ input.length) &&
        (getB input (p + 2 * j) == 0) && (getB input (p + 2 * j + 1) == 0))).map
    (fun j => p + 2 * j)

inductive SzNames where
  | abort (p : Nat) (files : List ArchiveFile)
  | done (p : Nat) (files : List ArchiveFile)
deriving DecidableEq, Repr

/-- The per-file name loop of the kName case: a missing or empty name jumps
to the end of `rspamd_7zip_read_files_info` (returning the current,
non-NULL, cursor); a failed UCS-2 conversion merely skips the entry. -/
def szNamesLoop (env : SzEnv) (input : List Nat) :
    Nat → Nat → List ArchiveFile → SzNames
  | 0, p, files => .done p files
  | count + 1, p, files =>
    match szWcharTerm input p with
    | none => .abort p files
    | some fend =>
      if fend - p = 0 then .abort p files
      else
        match env.ucs2 ((input.drop p).take (fend - p)) with
        | none => szNamesLoop env input count (fend + 2) files
        | some nm =>
          szNamesLoop env input count (fend + 2)
            (files ++ [{ fname := nm, obfuscated := false, encrypted := false,
                         compressedSize := 0, uncompressedSize := 0 }])

inductive SzFiles where
  | ok (p : Nat) (files : List ArchiveFile)
  | err (files : List ArchiveFile)
  | fuelOut
deriving DecidableEq, Repr

/-- The record loop of `rspamd_7zip_read_files_info`: kEnd is checked before
the size vint; unknown tags return NULL with the files collected so far
already appended to the archive. -/
def szFilesLoop (env : SzEnv) (junk : Nat) (input : List Nat) (nfiles : Nat) :
    Nat → Nat → List ArchiveFile → SzFiles
  | 0, _, _ => .fuelOut
  | fuel + 1, p, files =>
    if p < input.length then
      let t := getB input p
      let p1 := p + 1
      if t = 0 then .ok p1 files
      else
        match szvint junk input p1 with
        | none => .err files
        | some (sz, p2) =>
          if t = 0x0E ∨ t = 0x0F ∨ t = 0x10 ∨ t = 0x12 ∨ t = 0x13 ∨ t = 0x14 then
            if sz > 0 then
              match szSkip input p2 sz with
              | none => .err files
              | some p3 => szFilesLoop env junk input nfiles fuel p3 files
            else szFilesLoop env junk input nfiles fuel p2 files
          else if t = 0x11 then
            let b := getB input p2
            match szSkip input p2 1 with
            | none => .err files
            | some p3 =>
              if b ≠ 0 then
                match szvint junk input p3 with
                | none => .err files
                | some (_, p4) => szFilesLoop env junk input nfiles fuel p4 files
              else
                match szNamesLoop env input nfiles p3 files with
                | .abort p4 files2 => .ok p4 files2
                | .done p4 files2 => szFilesLoop env junk input nfiles fuel p4 files2
          else if t = 0x19 ∨ t = 0x15 then
            if sz > 0 then
              match szSkip input p2 sz with
              | none => .err files
              | some p3 => szFilesLoop env junk input nfiles fuel p3 files
            else szFilesLoop env junk input nfiles fuel p2 files
          else .err files
    else .ok p files

/-- Model of `rspamd_7zip_read_files_info`. -/
def rspamd_7zip_read_files_info (env : SzEnv) (junk : Nat) (input : List Nat)
    (fuel p : Nat) (files : List ArchiveFile) : SzFiles :=
  match szvint junk input p with
  | none => .err files
  | some (nfiles, p1) => szFilesLoop env junk input nfiles fuel p1 files

inductive SzSec where
  | next (p : Nat) (files : List ArchiveFile) (enc : Bool)
  | ended (errored : Bool) (files : List ArchiveFile) (enc : Bool)
  | fuelOut
deriving DecidableEq, Repr

/-- Model of `rspamd_7zip_read_next_section`.  A NULL return ends the outer
walk whichever way it arose; the `errored` flag records whether the exit was
the success path (the final kEnd section, or a libarchive-decoded encoded
header) or a failure (truncation, a bad tag, or a failing handler). -/
def rspamd_7zip_read_next_section (env : SzEnv) (junk : Nat) (input : List Nat)
    (fuel p : Nat) (files : List ArchiveFile) (enc : Bool) : SzSec :=
  let t := getB input p
  match szSkip input p 1 with
  | none => .ended true files enc
  | some p1 =>
    if t = 0x01 then .next p1 files enc
    else if t = 0x17 then
      match env.libarchive input with
      | none => .ended true files enc
      | some (fs, enc2) => .ended false fs (enc || enc2)
    else if t = 0x02 then
      match rspamd_7zip_read_archive_props junk input fuel p1 with
      | .fuelOut => .fuelOut
      | .err => .ended true files enc
      | .ok p2 => .next p2 files enc
    else if t = 0x04 ∨ t = 0x03 then
      match rspamd_7zip_read_main_streams_info junk input fuel p1 enc with
      | .fuelOut => .fuelOut
      | .err enc2 => .ended true files enc2
      | .ok p2 enc2 => .next p2 files enc2
    else if t = 0x05 then
      match rspamd_7zip_read_files_info env junk input fuel p1 files with
      | .fuelOut => .fuelOut
      | .err fs2 => .ended true fs2 enc
      | .ok p2 fs2 => .next p2 fs2 enc
    else if t = 0 then .ended false files enc
    else .ended true files enc

inductive SzWalkOut where
  | done (errored : Bool) (files : List ArchiveFile) (enc : Bool)
  | fuelOut
deriving DecidableEq, Repr

/-- The section walk `while ((p = rspamd_7zip_read_next_section(...)) != NULL);`. -/
def szWalk (env : SzEnv) (junk : Nat) (input : List Nat) :
    Nat → Nat → List ArchiveFile → Bool → SzWalkOut
  | 0, _, _, _ => .fuelOut
  | fuel + 1, p, files, enc =>
    match rspamd_7zip_read_next_section env junk input fuel p files enc with
    | .fuelOut => .fuelOut
    | .next p2 f2 e2 => szWalk env junk input fuel p2 f2 e2
    | .ended errored f2 e2 => .done errored f2 e2

inductive SzOut where
  | noPublish
  | published (walkErrored : Bool) (arch : Archive)
  | fuelOut
deriving DecidableEq, Repr

def szMagic : List Nat := [0x37, 0x7A, 0xBC, 0xAF, 0x27, 0x1C]

/-- Model of `rspamd_archive_process_7zip`: the fixed-header checks return
without attaching anything, but after the section walk the archive is
attached to the part unconditionally — also when the walk's last step
failed. -/
def rspamd_archive_process_7zip (env : SzEnv) (junk : Nat) (input : List Nat)
    (fuel : Nat) : SzOut :=
  if input.length ≤ 12 ∨ input.take 6 ≠ szMagic then .noPublish
  else if input.length - 12 < 8 then .noPublish
  else if input.length - 20 < 8 then .noPublish
  else if 4 < input.length - 28 then
    if readU64 input 12 < input.length - 32 then
      match szWalk env junk input fuel (32 + readU64 input 12) [] false with
      | .fuelOut => .fuelOut
      | .done errored files enc =>
        .published errored
          { atype := .sevenZip, files := files, encrypted := enc,
            hasObfuscatedFiles := false, size := input.length }
    else .noPublish
  else .noPublish

/-- The fixed-header checks of the 7-Zip reader (those before the section
walk), as one predicate. -/
def szHeaderOk (input : List Nat) : Bool :=
  decide (12 < input.length) && decide (input.take 6 = szMagic) &&
    decide (8 ≤ input.length - 12) && decide (8 ≤ input.length - 20) &&
    decide (4 < input.length - 28) &&
    decide (readU64 input 12 < input.length - 32)

/-- A concrete 7-Zip environment: the UCS-2 converter keeps the low byte of
every code unit, libarchive cannot open the encoded-header archives. -/
def szEnvTest : SzEnv where
  ucs2 := fun bs => some ((List.range (bs.length / 2)).map (fun i => getB bs (2 * i)))
  libarchive := fun _ => none

/-! ### C2: all-or-nothing publication -/

lemma gzipNameScan_all_or_nothing (env : NormEnv) (input : List Nat)
    (q : Nat) (e : Bool) (h : (gzipNameScan env input q e).errored = true) :
    (gzipNameScan env input q e).published = none := by
  unfold gzipNameScan at h ⊢
  revert h
  split
  · intro _; rfl
  · intro h; simp at h

lemma gzipFallback_not_errored (input : List Nat) (cd : Option (List Nat))
    (e : Bool) : (gzipFallback input cd e).errored = false := by
  unfold gzipFallback
  repeat' split
  all_goals rfl

/-- The gzip reader never publishes on an error path: every branch that sets
`errored` publishes nothing. -/
lemma gzip_all_or_nothing (env : NormEnv) (input : List Nat)
    (cd : Option (List Nat))
    (h : (rspamd_archive_process_gzip env input cd).errored = true) :
    (rspamd_archive_process_gzip env input cd).published = none := by
  unfold rspamd_archive_process_gzip at h ⊢
  revert h
  dsimp only
  repeat' split
  all_goals
    first
    | (intro _; rfl)
    | exact gzipNameScan_all_or_nothing env input _ _
    | (intro h; exact absurd h (by simp [gzipFallback_not_errored]))

/-- The v4 record loop reports an error only with nothing published. -/
lemma rarV4Loop_all_or_nothing (env : NormEnv) (input : List Nat) :
    ∀ (fuel p c : Nat) (files : List ArchiveFile) (obf : Bool)
      (pub : Option Archive),
      rarV4Loop env input fuel p c files obf = .done true pub → pub = none := by
  intro fuel
  induction fuel with
  | zero => intro p c files obf pub h; simp [rarV4Loop] at h
  | succ n ih =>
    intro p c files obf pub h
    simp only [rarV4Loop] at h
    split at h
    · cases hs : rarV4Step env input p c with
      | fail => simp only [hs] at h; exact ((RarOutcome.done.inj h).2).symm
      | finishEnc =>
        simp only [hs] at h; exact absurd (RarOutcome.done.inj h).1 (by decide)
      | cont p2 c2 f => simp only [hs] at h; exact ih p2 c2 _ _ pub h
    · exact absurd (RarOutcome.done.inj h).1 (by decide)

/-- The v5 record loop reports an error only with nothing published. -/
lemma rarV5Loop_all_or_nothing (env : NormEnv) (input : List Nat) :
    ∀ (fuel p c : Nat) (files : List ArchiveFile) (obf archEnc : Bool)
      (pub : Option Archive),
      rarV5Loop env input fuel p c files obf archEnc = .done true pub →
      pub = none := by
  intro fuel
  induction fuel with
  | zero => intro p c files obf archEnc pub h; simp [rarV5Loop] at h
  | succ n ih =>
    intro p c files obf archEnc pub h
    simp only [rarV5Loop] at h
    split at h
    · cases hs : rarV5Step env input n p c with
      | fail => simp only [hs] at h; exact ((RarOutcome.done.inj h).2).symm
      | hang => simp only [hs] at h; exact RarOutcome.noConfusion h
      | cont p2 c2 f e => simp only [hs] at h; exact ih p2 c2 _ _ _ pub h
    · exact absurd (RarOutcome.done.inj h).1 (by decide)

/-- The RAR reader (both versions) publishes nothing on any error path. -/
lemma rar_all_or_nothing (env : NormEnv) (input : List Nat) (fuel : Nat)
    (pub : Option Archive)
    (h : rspamd_archive_process_rar env input fuel = .done true pub) :
    pub = none := by
  unfold rspamd_archive_process_rar at h
  dsimp only at h
  repeat' split at h
  all_goals
    first
    | exact rarV5Loop_all_or_nothing env input _ _ _ _ _ _ _ h
    | exact rarV4Loop_all_or_nothing env input _ _ _ _ _ _ h
    | exact ((RarOutcome.done.inj h).2).symm
    | exact absurd (RarOutcome.done.inj h).1 (by decide)

/-- A 7-Zip archive whose section area is a kFilesInfo section carrying one
file name `a` followed by the invalid tag 0xEE. -/
def c2cex : List Nat :=
  [0x37, 0x7A, 0xBC, 0xAF, 0x27, 0x1C,
   0x00, 0x04,
   0, 0, 0, 0,
   0, 0, 0, 0, 0, 0, 0, 0,
   0x0A, 0, 0, 0, 0, 0, 0, 0,
   0, 0, 0, 0,
   0x05, 0x01, 0x11, 0x07, 0x00, 0x61, 0x00, 0x00, 0x00, 0xEE]

/-- A RAR input with the v4 magic and a first record whose size field is
zero: the walk fails at once. -/
def c2rar : List Nat :=
  [0x52, 0x61, 0x72, 0x21, 0x1A, 0x07, 0x00, 0, 0, 0, 0, 0, 0, 0]

/-- C2 counterexample: on `c2cex` the 7-Zip section walk fails (invalid tag
0xEE after the file list), yet the reader attaches the partially populated
archive — the file `a` collected before the failure is observable. -/
theorem c2_7zip_publishes_after_error_counterexample :
    rspamd_archive_process_7zip szEnvTest 0 c2cex 40 =
      .published true
        { atype := .sevenZip,
          files := [{ fname := [0x61], obfuscated := false, encrypted := false,
                      compressedSize := 0, uncompressedSize := 0 }],
          encrypted := false, hasObfuscatedFiles := false, size := 42 } ∧
    ([{ fname := [0x61], obfuscated := false, encrypted := false,
        compressedSize := 0, uncompressedSize := 0 }] : List ArchiveFile) ≠ [] := by
  constructor
  · rfl
  · simp

/-- C2 (amended): the ZIP, RAR and gzip readers are all-or-nothing — a run
either fails publishing nothing or succeeds with a full archive — but the
7-Zip reader is not: once the fixed header passes, the archive is published
with whatever files the section walk collected, also when the walk ended in
an error. -/
theorem c2_reader_all_or_nothing_amended :
    (∀ (env : NormEnv) (input : List Nat),
      (∃ e, rspamd_archive_process_zip env input = Except.error e) ∨
      (∃ arch, rspamd_archive_process_zip env input = Except.ok arch)) ∧
    (∀ (env : NormEnv) (input : List Nat) (fuel : Nat) (pub : Option Archive),
      rspamd_archive_process_rar env input fuel = .done true pub → pub = none) ∧
    (∀ (env : NormEnv) (input : List Nat) (cd : Option (List Nat)),
      (rspamd_archive_process_gzip env input cd).errored = true →
      (rspamd_archive_process_gzip env input cd).published = none) ∧
    (∀ (env : SzEnv) (junk : Nat) (input : List Nat) (fuel : Nat)
      (errored : Bool) (files : List ArchiveFile) (enc : Bool),
      szHeaderOk input = true →
      szWalk env junk input fuel (32 + readU64 input 12) [] false =
        .done errored files enc →
      rspamd_archive_process_7zip env junk input fuel =
        .published errored
          { atype := .sevenZip, files := files, encrypted := enc,
            hasObfuscatedFiles := false, size := input.length }) := by
  refine ⟨?_, ?_, ?_, ?_⟩
  · intro env input
    cases hz : rspamd_archive_process_zip env input with
    | error e => exact Or.inl ⟨e, rfl⟩
    | ok arch => exact Or.inr ⟨arch, rfl⟩
  · intro env input fuel pub h
    exact rar_all_or_nothing env input fuel pub h
  · intro env input cd h
    exact gzip_all_or_nothing env input cd h
  · intro env junk input fuel errored files enc h1 h2
    simp only [szHeaderOk, Bool.and_eq_true, decide_eq_true_eq] at h1
    obtain ⟨⟨⟨⟨⟨h12, hmg⟩, h8a⟩, h8b⟩, h4⟩, hso⟩ := h1
    unfold rspamd_archive_process_7zip
    rw [if_neg (by push_neg; exact ⟨by omega, hmg⟩), if_neg (by omega),
      if_neg (by omega), if_pos h4, if_pos hso, h2]

/-- Witness for C2 (amended): the four conjuncts at concrete inputs — the
empty ZIP input, the zero-size-record RAR input `c2rar`, a truncated gzip
input, and the partially parsed 7-Zip archive `c2cex`. -/
theorem c2_reader_all_or_nothing_amended_witness :
    ((∃ e, rspamd_archive_process_zip normEnvTest [] = Except.error e) ∨
      (∃ arch, rspamd_archive_process_zip normEnvTest [] = Except.ok arch)) ∧
    (none : Option Archive) = none ∧
    (rspamd_archive_process_gzip normEnvTest [0x1F] none).published = none ∧
    rspamd_archive_process_7zip szEnvTest 0 c2cex 40 =
      .published true
        { atype := .sevenZip,
          files := [{ fname := [0x61], obfuscated := false, encrypted := false,
                      compressedSize := 0, uncompressedSize := 0 }],
          encrypted := false, hasObfuscatedFiles := false, size := c2cex.length } := by
  refine ⟨c2_reader_all_or_nothing_amended.1 normEnvTest [],
    c2_reader_all_or_nothing_amended.2.1 normEnvTest c2rar 2 none rfl,
    c2_reader_all_or_nothing_amended.2.2.1 normEnvTest [0x1F] none rfl,
    c2_reader_all_or_nothing_amended.2.2.2 szEnvTest 0 c2cex 40 true
      [{ fname := [0x61], obfuscated := false, encrypted := false,
         compressedSize := 0, uncompressedSize := 0 }] false rfl rfl⟩

/-! ### Random-access reads of emitted buffers, and header patch normal
forms -/

lemma getB_append_right (a b : List Nat) (i : Nat) :
    getB (a ++ b) (a.length + i) = getB b i := by
  induction a with
  | nil => simp
  | cons x a ih =>
    have e : (x :: a).length + i = (a.length + i) + 1 := by simp; omega
    rw [List.cons_append, e]
    show getB (a ++ b) (a.length + i) = getB b i
    exact ih

lemma getB_at (l : List Nat) (i x : Nat) (pre rest : List Nat)
    (hsplit : l = pre ++ (x :: rest)) (hi : i = pre.length) : getB l i = x := by
  subst hsplit
  subst hi
  have h := getB_append_right pre (x :: rest) 0
  rw [Nat.add_zero] at h
  rw [h]
  rfl

lemma readU16_at (l : List Nat) (i v : Nat) (pre rest : List Nat)
    (hsplit : l = pre ++ (u16le v ++ rest)) (hi : i = pre.length) :
    readU16 l i = v % 65536 := by
  subst hsplit
  subst hi
  unfold readU16
  have h0 := getB_append_right pre (u16le v ++ rest) 0
  rw [Nat.add_zero] at h0
  have h1 := getB_append_right pre (u16le v ++ rest) 1
  rw [h0, h1]
  have e0 : getB (u16le v ++ rest) 0 = v % 256 := rfl
  have e1 : getB (u16le v ++ rest) 1 = v / 256 % 256 := rfl
  rw [e0, e1]
  omega

lemma readU32_at (l : List Nat) (i v : Nat) (pre rest : List Nat)
    (hsplit : l = pre ++ (u32le v ++ rest)) (hi : i = pre.length) :
    readU32 l i = v % 2 ^ 32 := by
  subst hsplit
  subst hi
  unfold readU32
  have h0 := getB_append_right pre (u32le v ++ rest) 0
  rw [Nat.add_zero] at h0
  have h1 := getB_append_right pre (u32le v ++ rest) 1
  have h2 := getB_append_right pre (u32le v ++ rest) 2
  have h3 := getB_append_right pre (u32le v ++ rest) 3
  rw [h0, h1, h2, h3]
  have e0 : getB (u32le v ++ rest) 0 = v % 256 := rfl
  have e1 : getB (u32le v ++ rest) 1 = v / 256 % 256 := rfl
  have e2 : getB (u32le v ++ rest) 2 = v / 65536 % 256 := rfl
  have e3 : getB (u32le v ++ rest) 3 = v / 16777216 % 256 := rfl
  rw [e0, e1, e2, e3]
  omega

lemma drop_at (l : List Nat) (i : Nat) (pre rest : List Nat)
    (hsplit : l = pre ++ rest) (hi : i = pre.length) : l.drop i = rest := by
  subst hsplit
  subst hi
  exact List.drop_left pre rest

lemma length_local_header (env : WriterEnv) (name : List Nat)
    (vN gF m mt crc cs us eL : Nat) :
    (rspamd_zip_write_local_header env name vN gF m mt crc cs us eL).length =
      30 + name.length := by
  simp [rspamd_zip_write_local_header, u16le, u32le]
  omega

lemma length_central_header (env : WriterEnv) (name : List Nat)
    (vN gF m mt crc cs us lo mo eL : Nat) :
    (rspamd_zip_write_central_header env name vN gF m mt crc cs us lo mo eL).length =
      46 + name.length := by
  simp [rspamd_zip_write_central_header, u16le, u32le]
  omega

lemma length_extra_aes (vv st am : Nat) :
    (rspamd_zip_write_extra_aes vv st am).length = 11 := by
  simp [rspamd_zip_write_extra_aes, u16le]

/-- Patching the two method bytes at offset 8 of a local header replaces the
method field. -/
lemma lfh_patch_method (env : WriterEnv) (name tail : List Nat)
    (vN gF m0 m mt crc cs us eL : Nat) :
    setBytes (rspamd_zip_write_local_header env name vN gF m0 mt crc cs us eL ++
        tail) 8 (u16le m) =
      rspamd_zip_write_local_header env name vN gF m mt crc cs us eL ++ tail := by
  unfold rspamd_zip_write_local_header
  have e1 : u32le 0x04034b50 ++ u16le vN ++ u16le gF ++ u16le m0 ++
        u16le (env.dosTime mt) ++ u16le (env.dosDate mt) ++ u32le crc ++
        u32le cs ++ u32le us ++ u16le name.length ++ u16le eL ++ name ++ tail =
      (u32le 0x04034b50 ++ (u16le vN ++ u16le gF)) ++
        (u16le m0 ++
          (u16le (env.dosTime mt) ++ (u16le (env.dosDate mt) ++ (u32le crc ++
            (u32le cs ++ (u32le us ++ (u16le name.length ++ (u16le eL ++
              (name ++ tail))))))))) := by
    simp [List.append_assoc]
  rw [e1, setBytes_exact (u16le m) _ (u16le m0) _ 8 (by simp [u16le, u32le]) rfl]
  simp [List.append_assoc]

/-- Patching the four crc bytes at offset 14 of a local header replaces the
crc field. -/
lemma lfh_patch_crc (env : WriterEnv) (name tail : List Nat)
    (vN gF m mt crc0 crc cs us eL : Nat) :
    setBytes (rspamd_zip_write_local_header env name vN gF m mt crc0 cs us eL ++
        tail) 14 (u32le crc) =
      rspamd_zip_write_local_header env name vN gF m mt crc cs us eL ++ tail := by
  unfold rspamd_zip_write_local_header
  have e1 : u32le 0x04034b50 ++ u16le vN ++ u16le gF ++ u16le m ++
        u16le (env.dosTime mt) ++ u16le (env.dosDate mt) ++ u32le crc0 ++
        u32le cs ++ u32le us ++ u16le name.length ++ u16le eL ++ name ++ tail =
      (u32le 0x04034b50 ++ (u16le vN ++ (u16le gF ++ (u16le m ++
        (u16le (env.dosTime mt) ++ u16le (env.dosDate mt)))))) ++
        (u32le crc0 ++
          (u32le cs ++ (u32le us ++ (u16le name.length ++ (u16le eL ++
            (name ++ tail)))))) := by
    simp [List.append_assoc]
  rw [e1, setBytes_exact (u32le crc) _ (u32le crc0) _ 14 (by simp [u16le, u32le]) rfl]
  simp [List.append_assoc]

/-- Patching the four bytes at offset 18 of a local header replaces the
compressed-size field. -/
lemma lfh_patch_csize (env : WriterEnv) (name tail : List Nat)
    (vN gF m mt crc cs0 cs us eL : Nat) :
    setBytes (rspamd_zip_write_local_header env name vN gF m mt crc cs0 us eL ++
        tail) 18 (u32le cs) =
      rspamd_zip_write_local_header env name vN gF m mt crc cs us eL ++ tail := by
  unfold rspamd_zip_write_local_header
  have e1 : u32le 0x04034b50 ++ u16le vN ++ u16le gF ++ u16le m ++
        u16le (env.dosTime mt) ++ u16le (env.dosDate mt) ++ u32le crc ++
        u32le cs0 ++ u32le us ++ u16le name.length ++ u16le eL ++ name ++ tail =
      (u32le 0x04034b50 ++ (u16le vN ++ (u16le gF ++ (u16le m ++
        (u16le (env.dosTime mt) ++ (u16le (env.dosDate mt) ++ u32le crc)))))) ++
        (u32le cs0 ++
          (u32le us ++ (u16le name.length ++ (u16le eL ++ (name ++ tail))))) := by
    simp [List.append_assoc]
  rw [e1, setBytes_exact (u32le cs) _ (u32le cs0) _ 18 (by simp [u16le, u32le]) rfl]
  simp [List.append_assoc]

/-- Patching the two bytes at offset 9 of the AES extra field (which follows
the 30 + name-length local header) replaces its actual-method field. -/
lemma extra_patch_method (env : WriterEnv) (name tail : List Nat)
    (vN gF m mt crc cs us eL vv st am0 am : Nat) :
    setBytes (rspamd_zip_write_local_header env name vN gF m mt crc cs us eL ++
        (rspamd_zip_write_extra_aes vv st am0 ++ tail))
      (30 + name.length + 9) (u16le am) =
      rspamd_zip_write_local_header env name vN gF m mt crc cs us eL ++
        (rspamd_zip_write_extra_aes vv st am ++ tail) := by
  have e1 : rspamd_zip_write_local_header env name vN gF m mt crc cs us eL ++
        (rspamd_zip_write_extra_aes vv st am0 ++ tail) =
      (rspamd_zip_write_local_header env name vN gF m mt crc cs us eL ++
        (u16le 0x9901 ++ (u16le 7 ++ (u16le vv ++ (0x41 :: 0x45 :: [st % 256]))))) ++
        (u16le am0 ++ tail) := by
    simp [rspamd_zip_write_extra_aes, List.append_assoc]
  rw [e1, setBytes_exact (u16le am) _ (u16le am0) _ (30 + name.length + 9)
    (by simp [length_local_header, u16le]) rfl]
  simp [rspamd_zip_write_extra_aes, List.append_assoc]

/-- The final bytes of an AES entry in normal form: the local header carries
the patched compressed size and the AES extra field the patched real
method. -/
lemma zipEntryChunk_aes (env : WriterEnv) (c : Nat) (cs : List Nat)
    (f : ZipFileSpec) :
    zipEntryChunk env (some (c :: cs)) f =
      rspamd_zip_write_local_header env f.name 51 0x801 99 f.mtime 0
        (zipAesCsize env (c :: cs) f) (f.data.length % 2 ^ 32) 11 ++
      (rspamd_zip_write_extra_aes 2 3 (zipMethodFinal env f) ++
        (zipSalt env ++ (((zipDk env (c :: cs)).drop 64).take 2 ++
          (zipCt env (c :: cs) f ++ zipMac env (c :: cs) f)))) := by
  unfold zipEntryChunk
  rw [if_pos (by rfl : zipUseAes (some (c :: cs)) = true)]
  simp only [Option.getD_some]
  rw [lfh_patch_csize, extra_patch_method]

/-- The final bytes of an unencrypted entry in normal form: the local header
carries the real method, the crc and the payload length. -/
lemma zipEntryChunk_plain (env : WriterEnv) (f : ZipFileSpec) :
    zipEntryChunk env none f =
      rspamd_zip_write_local_header env f.name 20 0x800 (zipMethodFinal env f)
        f.mtime (env.crc32 f.data % 2 ^ 32) ((zipPayload env f).length % 2 ^ 32)
        (f.data.length % 2 ^ 32) 0 ++ zipPayload env f := by
  unfold zipEntryChunk
  rw [if_neg (by decide : ¬ zipUseAes none = true)]
  have hm : (if zipStore env f then
        setBytes (rspamd_zip_write_local_header env f.name 20 0x800 8 f.mtime
            (env.crc32 f.data % 2 ^ 32) 0 (f.data.length % 2 ^ 32) 0 ++
          zipPayload env f) 8 (u16le 0)
      else
        rspamd_zip_write_local_header env f.name 20 0x800 8 f.mtime
            (env.crc32 f.data % 2 ^ 32) 0 (f.data.length % 2 ^ 32) 0 ++
          zipPayload env f) =
      rspamd_zip_write_local_header env f.name 20 0x800 (zipMethodFinal env f)
          f.mtime (env.crc32 f.data % 2 ^ 32) 0 (f.data.length % 2 ^ 32) 0 ++
        zipPayload env f := by
    by_cases hst : zipStore env f
    · rw [if_pos hst, lfh_patch_method, zipMethodFinal, if_pos hst]
    · rw [if_neg hst, zipMethodFinal, if_neg hst]
  rw [hm, lfh_patch_crc, lfh_patch_csize]

lemma getB_prefix (a b : List Nat) (o k : Nat) (ho : o = a.length) :
    getB (a ++ b) (o + k) = getB b k := by
  subst ho
  exact getB_append_right a b k

lemma readU16_prefix (a b : List Nat) (o k : Nat) (ho : o = a.length) :
    readU16 (a ++ b) (o + k) = readU16 b k := by
  subst ho
  unfold readU16
  have e1 : a.length + k + 1 = a.length + (k + 1) := by omega
  rw [e1, getB_append_right, getB_append_right]

lemma readU32_prefix (a b : List Nat) (o k : Nat) (ho : o = a.length) :
    readU32 (a ++ b) (o + k) = readU32 b k := by
  subst ho
  unfold readU32
  have e1 : a.length + k + 1 = a.length + (k + 1) := by omega
  have e2 : a.length + k + 2 = a.length + (k + 2) := by omega
  have e3 : a.length + k + 3 = a.length + (k + 3) := by omega
  rw [e1, e2, e3, getB_append_right, getB_append_right, getB_append_right,
    getB_append_right]

lemma drop_prefix (a b : List Nat) (o k : Nat) (ho : o = a.length) :
    (a ++ b).drop (o + k) = b.drop k := by
  subst ho
  induction a with
  | nil => simp
  | cons x a ih =>
    have e : (x :: a).length + k = (a.length + k) + 1 := by simp; omega
    rw [List.cons_append, e]
    show (a ++ b).drop (a.length + k) = b.drop k
    exact ih

/-- The per-entry bytes of `zipEntriesGo` do not depend on the offset. -/
lemma zipEntriesGo_fst_off (env : WriterEnv) (pw : Option (List Nat)) :
    ∀ (l : List ZipFileSpec) (o1 o2 : Nat),
      (zipEntriesGo env pw l o1).1 = (zipEntriesGo env pw l o2).1 := by
  intro l
  induction l with
  | nil => intro o1 o2; rfl
  | cons f rest ih =>
    intro o1 o2
    simp only [zipEntriesGo]
    exact congrArg (fun t => zipEntryChunk env pw f ++ t) (ih _ _)

lemma zipEntriesGo_fst_append (env : WriterEnv) (pw : Option (List Nat)) :
    ∀ (l1 l2 : List ZipFileSpec) (off : Nat),
      (zipEntriesGo env pw (l1 ++ l2) off).1 =
        (zipEntriesGo env pw l1 0).1 ++ (zipEntriesGo env pw l2 0).1 := by
  intro l1
  induction l1 with
  | nil =>
    intro l2 off
    simp only [List.nil_append, zipEntriesGo]
    exact zipEntriesGo_fst_off env pw l2 off 0
  | cons f rest ih =>
    intro l2 off
    simp only [List.cons_append, zipEntriesGo, List.append_eq]
    rw [ih]
    rw [zipEntriesGo_fst_off env pw rest
      (0 + (zipEntryChunk env pw f).length) 0]
    simp [List.append_assoc]

/-- C7: every entry written with a non-empty password gets an AE-2 local
header: version at least 51, general-purpose bit 0 set, wire method 99, crc
zero, and an extra field with id 0x9901, data size 7, vendor version 2
(AE-2), vendor id `AE`, strength 3 (AES-256), and the real method — 8, or 0
after the store fallback. -/
theorem c7_aes_wire_format (env : WriterEnv) (pre post : List ZipFileSpec)
    (f : ZipFileSpec) (c : Nat) (cs : List Nat) (out : List Nat) (off : Nat)
    (hval : ∀ g ∈ pre ++ f :: post, rspamd_zip_validate_name g.name = true)
    (hw : rspamd_archives_zip_write env (pre ++ f :: post) (some (c :: cs)) =
      .ok out)
    (hoff : off = (zipEntriesGo env (some (c :: cs)) pre 0).1.length) :
    51 ≤ readU16 out (off + 4) ∧
    readU16 out (off + 6) % 2 = 1 ∧
    readU16 out (off + 8) = 99 ∧
    readU32 out (off + 14) = 0 ∧
    readU16 out (off + 30 + f.name.length) = 0x9901 ∧
    readU16 out (off + 30 + f.name.length + 2) = 7 ∧
    readU16 out (off + 30 + f.name.length + 4) = 2 ∧
    getB out (off + 30 + f.name.length + 6) = 0x41 ∧
    getB out (off + 30 + f.name.length + 7) = 0x45 ∧
    getB out (off + 30 + f.name.length + 8) = 3 ∧
    (readU16 out (off + 30 + f.name.length + 9) = 8 ∨
      readU16 out (off + 30 + f.name.length + 9) = 0) := by
  rw [zip_write_closed env (some (c :: cs)) (pre ++ f :: post) (by simp) hval] at hw
  have hout := (Except.ok.inj hw).symm
  have hz : (zipEntriesGo env (some (c :: cs)) (pre ++ f :: post) 0).1 =
      (zipEntriesGo env (some (c :: cs)) pre 0).1 ++
      (zipEntryChunk env (some (c :: cs)) f ++
        (zipEntriesGo env (some (c :: cs)) post 0).1) := by
    rw [zipEntriesGo_fst_append]
    simp only [zipEntriesGo]
    rw [zipEntriesGo_fst_off env (some (c :: cs)) post
      (0 + (zipEntryChunk env (some (c :: cs)) f).length) 0]
  generalize hEO : u32le 0x06054b50 ++ u16le 0 ++ u16le 0 ++
      u16le (pre ++ f :: post).length ++ u16le (pre ++ f :: post).length ++
      u32le (zipEntriesGo env (some (c :: cs)) (pre ++ f :: post) 0).2.length ++
      u32le (zipEntriesGo env (some (c :: cs)) (pre ++ f :: post) 0).1.length ++
      u16le 0 = eo at hout
  generalize hCC : (zipEntriesGo env (some (c :: cs)) (pre ++ f :: post) 0).2 =
      cc at hout
  rw [hz, zipEntryChunk_aes] at hout
  have hO : out =
      (zipEntriesGo env (some (c :: cs)) pre 0).1 ++
      (rspamd_zip_write_local_header env f.name 51 0x801 99 f.mtime 0
          (zipAesCsize env (c :: cs) f) (f.data.length % 2 ^ 32) 11 ++
        (rspamd_zip_write_extra_aes 2 3 (zipMethodFinal env f) ++
          ((zipSalt env ++ (((zipDk env (c :: cs)).drop 64).take 2 ++
            (zipCt env (c :: cs) f ++ zipMac env (c :: cs) f))) ++
          ((zipEntriesGo env (some (c :: cs)) post 0).1 ++ (cc ++ eo))))) := by
    rw [hout]
    simp [List.append_assoc]
  generalize hTB : (zipSalt env ++ (((zipDk env (c :: cs)).drop 64).take 2 ++
      (zipCt env (c :: cs) f ++ zipMac env (c :: cs) f))) ++
      ((zipEntriesGo env (some (c :: cs)) post 0).1 ++ (cc ++ eo)) = tb at hO
  generalize hP : (zipEntriesGo env (some (c :: cs)) pre 0).1 = P at hO hoff
  have hL : (30 : Nat) + f.name.length =
      (rspamd_zip_write_local_header env f.name 51 0x801 99 f.mtime 0
        (zipAesCsize env (c :: cs) f) (f.data.length % 2 ^ 32) 11).length := by
    rw [length_local_header]
  refine ⟨?_, ?_, ?_, ?_, ?_, ?_, ?_, ?_, ?_, ?_, ?_⟩
  · rw [hO, readU16_prefix P _ off 4 hoff]
    norm_num [readU16, getB, rspamd_zip_write_local_header, u16le, u32le]
  · rw [hO, readU16_prefix P _ off 6 hoff]
    norm_num [readU16, getB, rspamd_zip_write_local_header, u16le, u32le]
  · rw [hO, readU16_prefix P _ off 8 hoff]
    norm_num [readU16, getB, rspamd_zip_write_local_header, u16le, u32le]
  · rw [hO, readU32_prefix P _ off 14 hoff]
    norm_num [readU32, getB, rspamd_zip_write_local_header, u16le, u32le]
  · have e : off + 30 + f.name.length = off + (30 + f.name.length + 0) := by omega
    rw [hO, e, readU16_prefix P _ off (30 + f.name.length + 0) hoff,
      readU16_prefix _ _ (30 + f.name.length) 0 hL]
    norm_num [readU16, getB, rspamd_zip_write_extra_aes, u16le]
  · have e : off + 30 + f.name.length + 2 = off + (30 + f.name.length + 2) := by omega
    rw [hO, e, readU16_prefix P _ off (30 + f.name.length + 2) hoff,
      readU16_prefix _ _ (30 + f.name.length) 2 hL]
    norm_num [readU16, getB, rspamd_zip_write_extra_aes, u16le]
  · have e : off + 30 + f.name.length + 4 = off + (30 + f.name.length + 4) := by omega
    rw [hO, e, readU16_prefix P _ off (30 + f.name.length + 4) hoff,
      readU16_prefix _ _ (30 + f.name.length) 4 hL]
    norm_num [readU16, getB, rspamd_zip_write_extra_aes, u16le]
  · have e : off + 30 + f.name.length + 6 = off + (30 + f.name.length + 6) := by omega
    rw [hO, e, getB_prefix P _ off (30 + f.name.length + 6) hoff,
      getB_prefix _ _ (30 + f.name.length) 6 hL]
    norm_num [getB, rspamd_zip_write_extra_aes, u16le]
  · have e : off + 30 + f.name.length + 7 = off + (30 + f.name.length + 7) := by omega
    rw [hO, e, getB_prefix P _ off (30 + f.name.length + 7) hoff,
      getB_prefix _ _ (30 + f.name.length) 7 hL]
    norm_num [getB, rspamd_zip_write_extra_aes, u16le]
  · have e : off + 30 + f.name.length + 8 = off + (30 + f.name.length + 8) := by omega
    rw [hO, e, getB_prefix P _ off (30 + f.name.length + 8) hoff,
      getB_prefix _ _ (30 + f.name.length) 8 hL]
    norm_num [getB, rspamd_zip_write_extra_aes, u16le]
  · have e : off + 30 + f.name.length + 9 = off + (30 + f.name.length + 9) := by omega
    rw [hO, e, readU16_prefix P _ off (30 + f.name.length + 9) hoff,
      readU16_prefix _ _ (30 + f.name.length) 9 hL]
    by_cases hst : zipStore env f
    · right
      rw [show zipMethodFinal env f = 0 from by unfold zipMethodFinal; rw [if_pos hst]]
      norm_num [readU16, getB, rspamd_zip_write_extra_aes, u16le]
    · left
      rw [show zipMethodFinal env f = 8 from by unfold zipMethodFinal; rw [if_neg hst]]
      norm_num [readU16, getB, rspamd_zip_write_extra_aes, u16le]

/-- The archive produced by the writer for the single entry `a` (data `y`)
with password `p` under `envTest`. -/
def c7out : List Nat :=
  [80, 75, 3, 4, 51, 0, 1, 8, 99, 0, 0, 0, 0, 0, 0, 0, 0, 0, 29, 0, 0, 0, 
   1, 0, 0, 0, 1, 0, 11, 0, 97, 1, 153, 7, 0, 2, 0, 65, 69, 3, 0, 0, 1, 1, 
   1, 1, 1, 1, 1, 1, 1, 1, 1, 1, 1, 1, 1, 1, 2, 2, 121, 3, 3, 3, 3, 3, 3, 
   3, 3, 3, 3, 80, 75, 1, 2, 20, 3, 51, 0, 1, 8, 99, 0, 0, 0, 0, 0, 0, 0, 
   0, 0, 29, 0, 0, 0, 1, 0, 0, 0, 1, 0, 11, 0, 0, 0, 0, 0, 0, 0, 0, 0, 164, 
   1, 0, 0, 0, 0, 97, 1, 153, 7, 0, 2, 0, 65, 69, 3, 0, 0, 80, 75, 5, 6, 0, 
   0, 0, 0, 1, 0, 1, 0, 58, 0, 0, 0, 71, 0, 0, 0, 0, 0]

set_option maxRecDepth 4096 in
/-- Witness for C7: the AE-2 wire fields of the single encrypted entry of
`c7out`. -/
theorem c7_aes_wire_format_witness :
    51 ≤ readU16 c7out 4 ∧
    readU16 c7out 6 % 2 = 1 ∧
    readU16 c7out 8 = 99 ∧
    readU32 c7out 14 = 0 ∧
    readU16 c7out 31 = 0x9901 ∧
    readU16 c7out 33 = 7 ∧
    readU16 c7out 35 = 2 ∧
    getB c7out 37 = 0x41 ∧
    getB c7out 38 = 0x45 ∧
    getB c7out 39 = 3 ∧
    (readU16 c7out 40 = 8 ∨ readU16 c7out 40 = 0) := by
  exact c7_aes_wire_format envTest [] [] ⟨[0x61], [0x79], 0, 0⟩ 0x70 [] c7out 0
    (by decide) (by rfl) rfl

/-- The normalizer is the identity (without obfuscation) on graphic-ASCII
names when the charset detector finds no charset. -/
lemma try_utf_graph (env : NormEnv) (name : List Nat)
    (hc : env.conv name = .noCharset) (hg : name.all asciiGraph = true) :
    rspamd_archive_file_try_utf env name = (name, false) := by
  unfold rspamd_archive_file_try_utf
  rw [hc]
  have hmem := List.all_eq_true.mp hg
  refine Prod.ext ?_ ?_
  · show name.map (fun b => if asciiGraph b then b else 0x3F) = name
    calc name.map (fun b => if asciiGraph b then b else 0x3F)
        = name.map id := List.map_congr_left (fun b hb => by simp [hmem b hb])
      _ = name := List.map_id name
  · show (name.any fun b => !asciiGraph b && decide (b < 0x20)) = false
    rw [List.any_eq_false]
    intro b hb
    simp [hmem b hb]

lemma getB_start (a b : List Nat) (o : Nat) (ho : o = a.length) :
    getB (a ++ b) o = getB b 0 := by
  subst ho
  have h := getB_append_right a b 0
  rw [Nat.add_zero] at h
  exact h

/-- The entry the reader reconstructs from a record the writer emitted
without a password. -/
def zipRoundEntry (envW : WriterEnv) (f : ZipFileSpec) : ArchiveFile :=
  { fname := f.name, obfuscated := false, encrypted := false,
    compressedSize := (zipPayload envW f).length % 2 ^ 32,
    uncompressedSize := f.data.length % 2 ^ 32 }

lemma zipEntriesGo_snd_len_ge (envW : WriterEnv) :
    ∀ (l : List ZipFileSpec) (offs : Nat),
      l.length ≤ (zipEntriesGo envW none l offs).2.length := by
  intro l
  induction l with
  | nil => intro offs; simp [zipEntriesGo]
  | cons f l ih =>
    intro offs
    simp only [zipEntriesGo, List.length_append, List.length_cons]
    have h1 := ih (offs + (zipEntryChunk envW none f).length)
    have h2 : (zipCdChunk envW none f offs).length = 46 + f.name.length := by
      rw [zipCdChunk, if_neg (by decide : ¬ zipUseAes none = true),
        length_central_header]
    omega

set_option maxHeartbeats 1600000 in
/-- Walking the central directory the writer emitted (password-free case)
reconstructs one entry per spec, in order. -/
lemma zipWalkCd_writer (envW : WriterEnv) (out : List Nat) (eocd : Nat) :
    ∀ (l : List ZipFileSpec) (P rest : List Nat) (offs cdEnd fuel : Nat)
      (files : List ArchiveFile) (obf : Bool),
      out = P ++ ((zipEntriesGo envW none l offs).2 ++ rest) →
      (∀ f ∈ l, f.name.all asciiGraph = true) →
      (∀ f ∈ l, f.name.length < 65536) →
      cdEnd = P.length + (zipEntriesGo envW none l offs).2.length →
      cdEnd ≤ eocd →
      l.length < fuel →
      zipWalkCd normEnvTest out eocd cdEnd fuel P.length files obf =
        .ok (files ++ l.map (zipRoundEntry envW), obf) := by
  intro l
  induction l with
  | nil =>
    intro P rest offs cdEnd fuel files obf hout hg hnl hend hle hfuel
    obtain ⟨n, rfl⟩ : ∃ n, fuel = n + 1 := ⟨fuel - 1, by omega⟩
    have hcd : cdEnd = P.length := by simpa [zipEntriesGo] using hend
    simp [zipWalkCd, hcd]
  | cons f l' ih =>
    intro P rest offs cdEnd fuel files obf hout hg hnl hend hle hfuel
    obtain ⟨n, rfl⟩ : ∃ n, fuel = n + 1 := ⟨fuel - 1, by omega⟩
    have hgf : f.name.all asciiGraph = true := hg f (by simp)
    have hnlf : f.name.length < 65536 := hnl f (by simp)
    have hch : (zipEntriesGo envW none (f :: l') offs).2 =
        rspamd_zip_write_central_header envW f.name 20 0x800 (zipMethodFinal envW f)
          f.mtime (envW.crc32 f.data % 2 ^ 32) ((zipPayload envW f).length % 2 ^ 32)
          (f.data.length % 2 ^ 32) (offs % 2 ^ 32) f.mode 0 ++
        ((zipEntriesGo envW none l'
          (offs + (zipEntryChunk envW none f).length)).2) := by
      simp only [zipEntriesGo, zipCdChunk]
      rw [if_neg (by decide : ¬ zipUseAes none = true)]
    have hsp : out = P ++
        (rspamd_zip_write_central_header envW f.name 20 0x800 (zipMethodFinal envW f)
          f.mtime (envW.crc32 f.data % 2 ^ 32) ((zipPayload envW f).length % 2 ^ 32)
          (f.data.length % 2 ^ 32) (offs % 2 ^ 32) f.mode 0 ++
        ((zipEntriesGo envW none l'
          (offs + (zipEntryChunk envW none f).length)).2 ++ rest)) := by
      rw [hout, hch]
      simp [List.append_assoc]
    have hK : cdEnd = P.length + (46 + f.name.length) +
        (zipEntriesGo envW none l'
          (offs + (zipEntryChunk envW none f).length)).2.length := by
      rw [hend, hch]
      simp [length_central_header]
      omega
    have g0 : getB out P.length = 0x50 := by
      rw [hsp, getB_start P _ P.length rfl]
      norm_num [readU16, readU32, getB, rspamd_zip_write_central_header, u16le, u32le]
    have g1 : getB out (P.length + 1) = 0x4b := by
      rw [hsp, getB_prefix P _ P.length 1 rfl]
      norm_num [readU16, readU32, getB, rspamd_zip_write_central_header, u16le, u32le]
    have g2 : getB out (P.length + 2) = 0x01 := by
      rw [hsp, getB_prefix P _ P.length 2 rfl]
      norm_num [readU16, readU32, getB, rspamd_zip_write_central_header, u16le, u32le]
    have g3 : getB out (P.length + 3) = 0x02 := by
      rw [hsp, getB_prefix P _ P.length 3 rfl]
      norm_num [readU16, readU32, getB, rspamd_zip_write_central_header, u16le, u32le]
    have h8 : readU16 out (P.length + 8) = 0x800 := by
      rw [hsp, readU16_prefix P _ P.length 8 rfl]
      norm_num [readU16, readU32, getB, rspamd_zip_write_central_header, u16le, u32le]
    have h20 : readU32 out (P.length + 20) = (zipPayload envW f).length % 2 ^ 32 := by
      rw [hsp, readU32_prefix P _ P.length 20 rfl]
      norm_num [readU16, readU32, getB, rspamd_zip_write_central_header, u16le, u32le]
      all_goals omega
    have h24 : readU32 out (P.length + 24) = f.data.length % 2 ^ 32 := by
      rw [hsp, readU32_prefix P _ P.length 24 rfl]
      norm_num [readU16, readU32, getB, rspamd_zip_write_central_header, u16le, u32le]
      all_goals omega
    have h28 : readU16 out (P.length + 28) = f.name.length := by
      rw [hsp, readU16_prefix P _ P.length 28 rfl]
      norm_num [readU16, readU32, getB, rspamd_zip_write_central_header, u16le, u32le]
      all_goals omega
    have h30 : readU16 out (P.length + 30) = 0 := by
      rw [hsp, readU16_prefix P _ P.length 30 rfl]
      norm_num [readU16, readU32, getB, rspamd_zip_write_central_header, u16le, u32le]
    have h32 : readU16 out (P.length + 32) = 0 := by
      rw [hsp, readU16_prefix P _ P.length 32 rfl]
      norm_num [readU16, readU32, getB, rspamd_zip_write_central_header, u16le, u32le]
    have hname : (out.drop (P.length + 46)).take f.name.length = f.name := by
      rw [hsp, drop_prefix P _ P.length 46 rfl]
      norm_num [rspamd_zip_write_central_header, u16le, u32le, List.append_assoc]
    have hcdlt : P.length < cdEnd := by omega
    have hcond : ¬ ((eocd : Int) - P.length < 46 ∨
        ¬ (getB out P.length = 0x50 ∧ getB out (P.length + 1) = 0x4b ∧
           getB out (P.length + 2) = 0x01 ∧ getB out (P.length + 3) = 0x02)) := by
      push_neg
      refine ⟨?_, g0, g1, g2, g3⟩
      have : P.length + 46 ≤ eocd := by omega
      push_cast
      omega
    have htoolarge : ¬ (P.length + f.name.length + 0 + 0 + 46 > eocd) := by omega
    have henc : zipExtraWalkEnc out (P.length + 46 + f.name.length) 0 (0 + 1)
        (P.length + 46 + f.name.length) = false := by
      show zipExtraWalkEnc out (P.length + 46 + f.name.length) 0 1
        (P.length + 46 + f.name.length) = false
      unfold zipExtraWalkEnc
      rw [if_neg (by omega)]
    simp only [zipWalkCd]
    rw [if_pos hcdlt, if_neg hcond, h8, h20, h24, h28, h30, h32]
    rw [if_neg htoolarge, hname, try_utf_graph normEnvTest f.name rfl hgf, henc]
    have hP2 : P.length + f.name.length + 0 + 0 + 46 =
        (P ++ rspamd_zip_write_central_header envW f.name 20 0x800 (zipMethodFinal envW f)
          f.mtime (envW.crc32 f.data % 2 ^ 32) ((zipPayload envW f).length % 2 ^ 32)
          (f.data.length % 2 ^ 32) (offs % 2 ^ 32) f.mode 0).length := by
      simp [length_central_header]
      omega
    rw [hP2]
    have hout2 : out = (P ++
        rspamd_zip_write_central_header envW f.name 20 0x800 (zipMethodFinal envW f)
          f.mtime (envW.crc32 f.data % 2 ^ 32) ((zipPayload envW f).length % 2 ^ 32)
          (f.data.length % 2 ^ 32) (offs % 2 ^ 32) f.mode 0) ++
        ((zipEntriesGo envW none l'
          (offs + (zipEntryChunk envW none f).length)).2 ++ rest) := by
      rw [hsp]
      simp [List.append_assoc]
    have hend2 : cdEnd = (P ++
        rspamd_zip_write_central_header envW f.name 20 0x800 (zipMethodFinal envW f)
          f.mtime (envW.crc32 f.data % 2 ^ 32) ((zipPayload envW f).length % 2 ^ 32)
          (f.data.length % 2 ^ 32) (offs % 2 ^ 32) f.mode 0).length +
        (zipEntriesGo envW none l'
          (offs + (zipEntryChunk envW none f).length)).2.length := by
      simp [length_central_header]
      omega
    have e1 : ((0x800 : Nat) &&& 0x41 != 0) = false := by decide
    dsimp only
    simp only [e1, Bool.or_false, Bool.false_or]
    rw [ih (P ++ rspamd_zip_write_central_header envW f.name 20 0x800 (zipMethodFinal envW f)
          f.mtime (envW.crc32 f.data % 2 ^ 32) ((zipPayload envW f).length % 2 ^ 32)
          (f.data.length % 2 ^ 32) (offs % 2 ^ 32) f.mode 0) rest
      (offs + (zipEntryChunk envW none f).length) cdEnd n (files ++
        [({ fname := f.name, obfuscated := false, encrypted := false,
            compressedSize := (zipPayload envW f).length % 2 ^ 32,
            uncompressedSize := f.data.length % 2 ^ 32 } : ArchiveFile)])
      obf hout2 (fun g hgm => hg g (by simp [hgm]))
      (fun g hgm => hnl g (by simp [hgm])) hend2 hle (by simp at hfuel; omega)]
    simp [zipRoundEntry]

lemma zipEntriesGo_cons_len (envW : WriterEnv) (f : ZipFileSpec)
    (l : List ZipFileSpec) (offs : Nat) :
    30 ≤ (zipEntriesGo envW none (f :: l) offs).1.length ∧
    46 ≤ (zipEntriesGo envW none (f :: l) offs).2.length := by
  simp only [zipEntriesGo, List.length_append]
  constructor
  · have h1 : 30 ≤ (zipEntryChunk envW none f).length := by
      rw [zipEntryChunk_plain]
      simp only [List.length_append, length_local_header]
      omega
    omega
  · have h2 : (zipCdChunk envW none f offs).length = 46 + f.name.length := by
      rw [zipCdChunk, if_neg (by decide : ¬ zipUseAes none = true),
        length_central_header]
    omega

set_option maxHeartbeats 1600000 in
/-- C1 (amended): reading back a password-free archive the writer produced
reconstructs one entry per spec, in order; entry names equal the spec names
when they are graphic ASCII (and the charset detector finds no charset), and
the uncompressed sizes equal the data lengths below 2^32.  (Without the
graphic-ASCII restriction the normalizer rewrites name bytes, so the claim's
unconditional name equality fails.) -/
theorem c1_zip_roundtrip_amended (envW : WriterEnv) (specs : List ZipFileSpec)
    (out : List Nat)
    (hne : specs ≠ [])
    (hval : ∀ f ∈ specs, rspamd_zip_validate_name f.name = true)
    (hg : ∀ f ∈ specs, f.name.all asciiGraph = true)
    (hnl : ∀ f ∈ specs, f.name.length < 65536)
    (hdl : ∀ f ∈ specs, f.data.length < 2 ^ 32)
    (hw : rspamd_archives_zip_write envW specs none = .ok out)
    (hsz : out.length < 2 ^ 32) :
    rspamd_archive_process_zip normEnvTest out =
      .ok { atype := .zip, files := specs.map (zipRoundEntry envW),
            encrypted := false, hasObfuscatedFiles := false,
            size := out.length } ∧
    (specs.map (zipRoundEntry envW)).map (fun e => e.fname) =
      specs.map (fun f => f.name) ∧
    (specs.map (zipRoundEntry envW)).map (fun e => e.uncompressedSize) =
      specs.map (fun f => f.data.length) := by
  rw [zip_write_closed envW none specs hne hval] at hw
  have hout := (Except.ok.inj hw).symm
  have hEl : ((u32le 0x06054b50 ++ u16le 0 ++ u16le 0 ++
        u16le specs.length ++ u16le specs.length ++
        u32le (zipEntriesGo envW none specs 0).2.length ++
        u32le (zipEntriesGo envW none specs 0).1.length ++ u16le 0) : List Nat).length = 22 := by
    simp [u16le, u32le]
  have hLen : out.length = (zipEntriesGo envW none specs 0).1.length +
      (zipEntriesGo envW none specs 0).2.length + 22 := by
    rw [hout]
    simp only [List.length_append, hEl]
  obtain ⟨f0, rest0, hsp0⟩ := List.exists_cons_of_ne_nil hne
  have hZl : 30 ≤ (zipEntriesGo envW none specs 0).1.length := by
    rw [hsp0]
    exact (zipEntriesGo_cons_len envW f0 rest0 0).1
  have hCl : 46 ≤ (zipEntriesGo envW none specs 0).2.length := by
    rw [hsp0]
    exact (zipEntriesGo_cons_len envW f0 rest0 0).2
  have hsig : readU32 out ((zipEntriesGo envW none specs 0).1.length +
      (zipEntriesGo envW none specs 0).2.length) = 0x06054b50 := by
    rw [hout]
    have h := readU32_prefix ((zipEntriesGo envW none specs 0).1 ++
        (zipEntriesGo envW none specs 0).2) (u32le 0x06054b50 ++ u16le 0 ++ u16le 0 ++
        u16le specs.length ++ u16le specs.length ++
        u32le (zipEntriesGo envW none specs 0).2.length ++
        u32le (zipEntriesGo envW none specs 0).1.length ++ u16le 0)
      (((zipEntriesGo envW none specs 0).1 ++ (zipEntriesGo envW none specs 0).2).length) 0 rfl
    rw [Nat.add_zero, List.length_append] at h
    rw [h]
    norm_num [readU32, getB, u32le, u16le]
  have hfind : zipFindEocd out = some ((zipEntriesGo envW none specs 0).1.length +
      (zipEntriesGo envW none specs 0).2.length) := by
    unfold zipFindEocd
    rw [if_neg (by omega : ¬ out.length < 22)]
    have hsub : out.length - 22 = (zipEntriesGo envW none specs 0).1.length +
        (zipEntriesGo envW none specs 0).2.length := by omega
    rw [hsub]
    obtain ⟨m, hm⟩ : ∃ m, (zipEntriesGo envW none specs 0).1.length +
        (zipEntriesGo envW none specs 0).2.length = m + 1 :=
      ⟨(zipEntriesGo envW none specs 0).1.length + (zipEntriesGo envW none specs 0).2.length - 1,
        by omega⟩
    rw [hm]
    simp only [zipFindEocdGo]
    rw [if_neg (by omega), if_neg (by omega), ← hm, hsig]
    simp
  have h16 : readU32 out ((zipEntriesGo envW none specs 0).1.length +
      (zipEntriesGo envW none specs 0).2.length + 16) = (zipEntriesGo envW none specs 0).1.length := by
    rw [hout]
    have h := readU32_prefix ((zipEntriesGo envW none specs 0).1 ++
        (zipEntriesGo envW none specs 0).2) (u32le 0x06054b50 ++ u16le 0 ++ u16le 0 ++
        u16le specs.length ++ u16le specs.length ++
        u32le (zipEntriesGo envW none specs 0).2.length ++
        u32le (zipEntriesGo envW none specs 0).1.length ++ u16le 0)
      (((zipEntriesGo envW none specs 0).1 ++ (zipEntriesGo envW none specs 0).2).length) 16 rfl
    rw [List.length_append] at h
    rw [h]
    have hv : readU32 (u32le 0x06054b50 ++ u16le 0 ++ u16le 0 ++
        u16le specs.length ++ u16le specs.length ++
        u32le (zipEntriesGo envW none specs 0).2.length ++
        u32le (zipEntriesGo envW none specs 0).1.length ++ u16le 0) 16 =
        (zipEntriesGo envW none specs 0).1.length % 2 ^ 32 := by
      norm_num [readU32, getB, u32le, u16le]
      omega
    rw [hv]
    omega
  have h12 : readU32 out ((zipEntriesGo envW none specs 0).1.length +
      (zipEntriesGo envW none specs 0).2.length + 12) = (zipEntriesGo envW none specs 0).2.length := by
    rw [hout]
    have h := readU32_prefix ((zipEntriesGo envW none specs 0).1 ++
        (zipEntriesGo envW none specs 0).2) (u32le 0x06054b50 ++ u16le 0 ++ u16le 0 ++
        u16le specs.length ++ u16le specs.length ++
        u32le (zipEntriesGo envW none specs 0).2.length ++
        u32le (zipEntriesGo envW none specs 0).1.length ++ u16le 0)
      (((zipEntriesGo envW none specs 0).1 ++ (zipEntriesGo envW none specs 0).2).length) 12 rfl
    rw [List.length_append] at h
    rw [h]
    have hv : readU32 (u32le 0x06054b50 ++ u16le 0 ++ u16le 0 ++
        u16le specs.length ++ u16le specs.length ++
        u32le (zipEntriesGo envW none specs 0).2.length ++
        u32le (zipEntriesGo envW none specs 0).1.length ++ u16le 0) 12 =
        (zipEntriesGo envW none specs 0).2.length % 2 ^ 32 := by
      norm_num [readU32, getB, u32le, u16le]
      omega
    rw [hv]
    omega
  have hfuel : specs.length < out.length + 1 := by
    have := zipEntriesGo_snd_len_ge envW specs 0
    omega
  have hout_w : out = (zipEntriesGo envW none specs 0).1 ++
      ((zipEntriesGo envW none specs 0).2 ++ (u32le 0x06054b50 ++ u16le 0 ++ u16le 0 ++
        u16le specs.length ++ u16le specs.length ++
        u32le (zipEntriesGo envW none specs 0).2.length ++
        u32le (zipEntriesGo envW none specs 0).1.length ++ u16le 0)) := by
    rw [hout]
    simp [List.append_assoc]
  have hwalk := zipWalkCd_writer envW out
    ((zipEntriesGo envW none specs 0).1.length + (zipEntriesGo envW none specs 0).2.length)
    specs (zipEntriesGo envW none specs 0).1 (u32le 0x06054b50 ++ u16le 0 ++ u16le 0 ++
        u16le specs.length ++ u16le specs.length ++
        u32le (zipEntriesGo envW none specs 0).2.length ++
        u32le (zipEntriesGo envW none specs 0).1.length ++ u16le 0) 0
    ((zipEntriesGo envW none specs 0).1.length + (zipEntriesGo envW none specs 0).2.length)
    (out.length + 1) [] false hout_w hg hnl rfl (le_refl _) hfuel
  refine ⟨?_, ?_, ?_⟩
  · unfold rspamd_archive_process_zip
    rw [hfind]
    have hshort : ¬ ((out.length : Int) - 1 -
        (((zipEntriesGo envW none specs 0).1.length : Int) + ((zipEntriesGo envW none specs 0).2.length : Int)) < 21) := by
      omega
    have hext : ¬ (((zipEntriesGo envW none specs 0).1.length +
        (zipEntriesGo envW none specs 0).2.length) % 2 ^ 32 >
        (zipEntriesGo envW none specs 0).1.length + (zipEntriesGo envW none specs 0).2.length) := by
      have := Nat.mod_le ((zipEntriesGo envW none specs 0).1.length +
        (zipEntriesGo envW none specs 0).2.length) (2 ^ 32)
      omega
    simp only [if_neg hshort, h16, h12, if_neg hext]
    simp only [zipCdWalkPhase, h16, h12]
    rw [hwalk]
    simp
    all_goals omega
  · simp [zipRoundEntry, List.map_map, Function.comp]
  · calc (specs.map (zipRoundEntry envW)).map (fun e => e.uncompressedSize)
        = specs.map (fun f => f.data.length % 2 ^ 32) := by
          simp [zipRoundEntry, List.map_map, Function.comp]
      _ = specs.map (fun f => f.data.length) :=
          List.map_congr_left (fun f hf => Nat.mod_eq_of_lt (hdl f hf))

/-- Composition of the writer and the reader on a one-entry spec list whose
name `a b` contains a space (graphic-ASCII is violated at one byte). -/
def c1cexRun : Except ZipReadFail Archive :=
  match rspamd_archives_zip_write envTest [⟨[0x61, 0x20, 0x62], [0x79], 0, 0⟩]
      none with
  | .error _ => .error .noEocd
  | .ok out => rspamd_archive_process_zip normEnvTest out

/-- C1 counterexample: the name `a b` passes the writer's validation, but
reading the written archive back yields the entry name `a?b` — the
normalizer replaces the non-graphic space byte — so the claim's
`files[i].name = specs[i].name` fails. -/
theorem c1_zip_roundtrip_counterexample :
    rspamd_zip_validate_name [0x61, 0x20, 0x62] = true ∧
    c1cexRun = .ok
      { atype := .zip,
        files := [{ fname := [0x61, 0x3F, 0x62], obfuscated := false,
                    encrypted := false, compressedSize := 1,
                    uncompressedSize := 1 }],
        encrypted := false, hasObfuscatedFiles := false, size := 105 } ∧
    ([0x61, 0x3F, 0x62] : List Nat) ≠ [0x61, 0x20, 0x62] := by
  refine ⟨by decide, by rfl, by decide⟩

/-- The archive the writer produces for the single entry `ab` (data `y`)
without a password under `envTest`. -/
def c1out : List Nat :=
  [80, 75, 3, 4, 20, 0, 0, 8, 0, 0, 0, 0, 0, 0, 0, 0, 0, 0, 1, 0, 0, 0, 1, 
   0, 0, 0, 2, 0, 0, 0, 97, 98, 121, 80, 75, 1, 2, 20, 3, 20, 0, 0, 8, 0, 
   0, 0, 0, 0, 0, 0, 0, 0, 0, 1, 0, 0, 0, 1, 0, 0, 0, 2, 0, 0, 0, 0, 0, 0, 
   0, 0, 0, 0, 0, 164, 1, 0, 0, 0, 0, 97, 98, 80, 75, 5, 6, 0, 0, 0, 0, 1, 
   0, 1, 0, 48, 0, 0, 0, 33, 0, 0, 0, 0, 0]

set_option maxRecDepth 4096 in
/-- Witness for C1 (amended): the roundtrip on the concrete one-entry
archive `c1out`. -/
theorem c1_zip_roundtrip_amended_witness :
    rspamd_archive_process_zip normEnvTest c1out =
      .ok { atype := .zip,
            files := [(⟨[0x61, 0x62], [0x79], 0, 0⟩ : ZipFileSpec)].map
              (zipRoundEntry envTest),
            encrypted := false, hasObfuscatedFiles := false,
            size := c1out.length } ∧
    ([(⟨[0x61, 0x62], [0x79], 0, 0⟩ : ZipFileSpec)].map
      (zipRoundEntry envTest)).map (fun e => e.fname) =
      [(⟨[0x61, 0x62], [0x79], 0, 0⟩ : ZipFileSpec)].map (fun f => f.name) ∧
    ([(⟨[0x61, 0x62], [0x79], 0, 0⟩ : ZipFileSpec)].map
      (zipRoundEntry envTest)).map (fun e => e.uncompressedSize) =
      [(⟨[0x61, 0x62], [0x79], 0, 0⟩ : ZipFileSpec)].map
        (fun f => f.data.length) := by
  exact c1_zip_roundtrip_amended envTest [⟨[0x61, 0x62], [0x79], 0, 0⟩] c1out
    (by decide) (by decide) (by decide) (by decide) (by decide) (by rfl)
    (by decide)

end Rspamd
